import Mathlib

/-!
Verification of the de430-parser multi-format codec (binary / CSV / JSON).

The C sources are shallowly embedded as follows:
* machine doubles are carried as their 64-bit patterns (`Nat < 2^64`) by the
  binary codec, which copies them verbatim; the text codecs (CSV/JSON), which
  go through decimal text, carry exact rationals (`ℚ`), idealizing IEEE-754
  rounding away;
* C strings are byte lists (binary codec) or character lists (text codecs);
* a file being written is a sink with a byte capacity; `fwrite`/`fprintf`
  consume capacity, and a write of more bytes than remain is a short write;
* a file being read is the list of its bytes (binary) or of its lines with
  the trailing newline stripped (CSV), or the parsed tree (JSON);
* `malloc` is assumed to succeed (out-of-memory paths are not modelled);
* the in/out parameter `DE430EphemerisData **result` is modelled by threading
  an explicit `init` value (the caller's pointer before the call) and
  returning the value the pointer holds after the call, `none` meaning NULL.
-/

namespace DE430

/-- Error codes from `de430_parser.h`.  `DE430_ERROR_INVALID_CONFIG` is
defined twice there (-4, then -7); the second definition wins. -/
def ERROR_NONE : Int := 0

/-- `DE430_ERROR_MEMORY_ALLOCATION` from `de430_parser.h`. -/
def ERROR_MEMORY_ALLOCATION : Int := -2

/-- `DE430_ERROR_PARSE_FAILED` from `de430_parser.h` (the spec's FormatError). -/
def ERROR_PARSE_FAILED : Int := -3

/-- `DE430_ERROR_FILE_IO` from `de430_parser.h` (the spec's IoError). -/
def ERROR_FILE_IO : Int := -5

/-- `DE430_ERROR_JSON_PARSE` from `de430_parser.h` (FormatError for JSON). -/
def ERROR_JSON_PARSE : Int := -6

/-- `DE430_ERROR_INVALID_CONFIG` from `de430_parser.h`, second definition. -/
def ERROR_INVALID_CONFIG : Int := -7

/-! ## Binary codec data model (`binary.c`)

`DE430EphemerisPoint` as the binary codec sees it: 18 doubles (kept as their
64-bit patterns, copied bit-for-bit by the codec) and a constellation string
of at most 31 bytes plus terminator. -/

/-- One ephemeris point for the binary codec: the 18 doubles of
`DE430EphemerisPoint` as raw 64-bit patterns, plus the constellation bytes
(without the NUL terminator). -/
structure BinPoint where
  jd : Nat
  pos0 : Nat
  pos1 : Nat
  pos2 : Nat
  ra : Nat
  dec : Nat
  magnitude : Nat
  phase : Nat
  angular_size : Nat
  physical_size : Nat
  albedo : Nat
  sun_dist : Nat
  earth_dist : Nat
  sun_ang_dist : Nat
  theta_edo : Nat
  ecl0 : Nat
  ecl1 : Nat
  ecl2 : Nat
  constellation : List Nat
deriving DecidableEq, Repr

/-- `DE430EphemerisData` for the binary codec: object name bytes (without the
NUL terminator) and the point array.  The C `count` field always equals the
length of the point array here. -/
structure BinObj where
  object_name : List Nat
  points : List BinPoint
deriving DecidableEq, Repr

/-- Little-endian 4 bytes of a `uint32_t`. -/
def u32le (n : Nat) : List Nat :=
  [n % 256, n / 2 ^ 8 % 256, n / 2 ^ 16 % 256, n / 2 ^ 24 % 256]

/-- Little-endian 8 bytes of a 64-bit double pattern. -/
def f64le (x : Nat) : List Nat :=
  [x % 256, x / 2 ^ 8 % 256, x / 2 ^ 16 % 256, x / 2 ^ 24 % 256,
   x / 2 ^ 32 % 256, x / 2 ^ 40 % 256, x / 2 ^ 48 % 256, x / 2 ^ 56 % 256]

/-- The magic bytes `"DE43"`. -/
def MAGIC : List Nat := [68, 69, 52, 51]

/-- The value of a little-endian byte list. -/
def leVal (bs : List Nat) : Nat := bs.foldr (fun b acc => b + 256 * acc) 0

/-- `fread` of `n` raw bytes: all-or-nothing, like `fread(buf, n, 1, fp)`. -/
def readBytes (n : Nat) (s : List Nat) : Option (List Nat × List Nat) :=
  if n ≤ s.length then some (s.take n, s.drop n) else none

/-- Read one little-endian `uint32_t`. -/
def readU32 (s : List Nat) : Option (Nat × List Nat) :=
  match readBytes 4 s with
  | some (b, r) => some (leVal b, r)
  | none => none

/-- Read one little-endian double pattern. -/
def readF64 (s : List Nat) : Option (Nat × List Nat) :=
  match readBytes 8 s with
  | some (b, r) => some (leVal b, r)
  | none => none

/-- Monadic glue for fallible reads, written out explicitly. -/
def obind {α β : Type} (x : Option α) (f : α → Option β) : Option β :=
  match x with
  | none => none
  | some a => f a

/-- Read a `DE430BinaryPointHeader` plus the trailing constellation bytes,
mirroring the per-point part of `de430_load_from_binary`: one `fread` of the
148-byte fixed header (18 doubles then `constellation_length`), whose fields
are the 8-byte / 4-byte slices of the block; `constellation_length` is
rejected if it exceeds the 32-byte capacity (checked before any constellation
byte is consumed); then that many raw bytes.  The stored string is the bytes
up to the first NUL. -/
def readPoint (s : List Nat) : Option (BinPoint × List Nat) :=
  obind (readBytes 148 s) fun (hb, s) =>
  obind (if 32 < leVal ((hb.drop 144).take 4) then none
         else readBytes (leVal ((hb.drop 144).take 4)) s) fun (cb, s) =>
  some (⟨leVal (hb.take 8), leVal ((hb.drop 8).take 8), leVal ((hb.drop 16).take 8),
         leVal ((hb.drop 24).take 8), leVal ((hb.drop 32).take 8), leVal ((hb.drop 40).take 8),
         leVal ((hb.drop 48).take 8), leVal ((hb.drop 56).take 8), leVal ((hb.drop 64).take 8),
         leVal ((hb.drop 72).take 8), leVal ((hb.drop 80).take 8), leVal ((hb.drop 88).take 8),
         leVal ((hb.drop 96).take 8), leVal ((hb.drop 104).take 8), leVal ((hb.drop 112).take 8),
         leVal ((hb.drop 120).take 8), leVal ((hb.drop 128).take 8), leVal ((hb.drop 136).take 8),
         cb.takeWhile (fun b => b != 0)⟩, s)

/-- Read `n` consecutive points. -/
def readPoints : Nat → List Nat → Option (List BinPoint × List Nat)
  | 0, s => some ([], s)
  | n + 1, s =>
    obind (readPoint s) fun (p, s) =>
    obind (readPoints n s) fun (ps, s) =>
    some (p :: ps, s)

/-- Read a `DE430BinaryObjectHeader` (one 8-byte `fread`: `name_length` then
`point_count`), the name bytes (rejecting a `name_length` that exceeds the
64-byte capacity before reading), and the declared number of points. -/
def readObj (s : List Nat) : Option (BinObj × List Nat) :=
  obind (readBytes 8 s) fun (oh, s) =>
  obind (if 64 < leVal (oh.take 4) then none
         else readBytes (leVal (oh.take 4)) s) fun (nb, s) =>
  obind (readPoints (leVal ((oh.drop 4).take 4)) s) fun (pts, s) =>
  some (⟨nb.takeWhile (fun b => b != 0), pts⟩, s)

/-- Read `n` consecutive objects. -/
def readObjs : Nat → List Nat → Option (List BinObj × List Nat)
  | 0, s => some ([], s)
  | n + 1, s =>
    obind (readObj s) fun (o, s) =>
    obind (readObjs n s) fun (os, s) =>
    some (o :: os, s)

/-- Read the `DE430BinaryHeader`: one 16-byte `fread` whose fields (magic,
version, object count; the reserved word is ignored) are slices. -/
def readFileHeader (s : List Nat) : Option (List Nat × Nat × Nat × List Nat) :=
  obind (readBytes 16 s) fun (hb, s) =>
  some (hb.take 4, leVal ((hb.drop 4).take 4), leVal ((hb.drop 8).take 4), s)

/-- `de430_load_from_binary`, with the file given as its byte list and the
caller's `*result` value as `init`.  Returns the error code and the value of
`*result` after the call (`none` = NULL).  Failures before the result array
is allocated leave `*result` untouched; failures inside the object loop free
everything and set `*result` to NULL.  Allocation failure is not modelled, so
the only reachable failure code is `DE430_ERROR_PARSE_FAILED`. -/
def de430_load_from_binary (s : List Nat) (init : Option (List BinObj)) :
    Int × Option (List BinObj) :=
  match readFileHeader s with
  | none => (ERROR_PARSE_FAILED, init)
  | some (m, v, c, s1) =>
    if m ≠ MAGIC then (ERROR_PARSE_FAILED, init)
    else if v ≠ 1 then (ERROR_PARSE_FAILED, init)
    else
      match readObjs c s1 with
      | none => (ERROR_PARSE_FAILED, none)
      | some (objs, _) => (ERROR_NONE, some objs)

/-! ## Binary encoder (`de430_save_to_binary`) -/

/-- The 18 doubles of a point in fixed wire order. -/
def enc18 (p : BinPoint) : List Nat :=
  f64le p.jd ++ f64le p.pos0 ++ f64le p.pos1 ++ f64le p.pos2 ++
  f64le p.ra ++ f64le p.dec ++ f64le p.magnitude ++ f64le p.phase ++
  f64le p.angular_size ++ f64le p.physical_size ++ f64le p.albedo ++
  f64le p.sun_dist ++ f64le p.earth_dist ++ f64le p.sun_ang_dist ++
  f64le p.theta_edo ++ f64le p.ecl0 ++ f64le p.ecl1 ++ f64le p.ecl2

/-- The bytes of one `DE430BinaryPointHeader`. -/
def pointHdrBytes (p : BinPoint) : List Nat :=
  enc18 p ++ u32le (p.constellation.length + 1)

/-- The wire bytes of one point: header, then NUL-terminated constellation. -/
def encPoint (p : BinPoint) : List Nat :=
  pointHdrBytes p ++ (p.constellation ++ [0])

/-- The wire bytes of a point list. -/
def encPoints : List BinPoint → List Nat
  | [] => []
  | p :: ps => encPoint p ++ encPoints ps

/-- The wire bytes of one object: object header, NUL-terminated name, points. -/
def encObj (o : BinObj) : List Nat :=
  (u32le (o.object_name.length + 1) ++ u32le o.points.length) ++
    ((o.object_name ++ [0]) ++ encPoints o.points)

/-- The wire bytes of an object list. -/
def encObjs : List BinObj → List Nat
  | [] => []
  | o :: os => encObj o ++ encObjs os

/-- The complete wire image written by a successful `de430_save_to_binary`. -/
def encFile (d : List BinObj) : List Nat :=
  (MAGIC ++ u32le 1 ++ u32le d.length ++ u32le 0) ++ encObjs d

/-- One checked `fwrite` against a sink with `cap` bytes of room: succeeds
returning the shrunk capacity and the bytes written, or fails on a short
write. -/
def wr (bs : List Nat) (cap : Nat) : Option (Nat × List Nat) :=
  if bs.length ≤ cap then some (cap - bs.length, bs) else none

/-- The two writes for one point (point header, constellation). -/
def savePoint (p : BinPoint) (cap : Nat) : Option (Nat × List Nat) :=
  obind (wr (pointHdrBytes p) cap) fun (cap, b1) =>
  obind (wr (p.constellation ++ [0]) cap) fun (cap, b2) =>
  some (cap, b1 ++ b2)

/-- The writes for a point list. -/
def savePoints : List BinPoint → Nat → Option (Nat × List Nat)
  | [], cap => some (cap, [])
  | p :: ps, cap =>
    obind (savePoint p cap) fun (cap, b1) =>
    obind (savePoints ps cap) fun (cap, b2) =>
    some (cap, b1 ++ b2)

/-- The writes for one object (object header, name, points). -/
def saveObj (o : BinObj) (cap : Nat) : Option (Nat × List Nat) :=
  obind (wr (u32le (o.object_name.length + 1) ++ u32le o.points.length) cap) fun (cap, b1) =>
  obind (wr (o.object_name ++ [0]) cap) fun (cap, b2) =>
  obind (savePoints o.points cap) fun (cap, b3) =>
  some (cap, b1 ++ (b2 ++ b3))

/-- The writes for an object list. -/
def saveObjs : List BinObj → Nat → Option (Nat × List Nat)
  | [], cap => some (cap, [])
  | o :: os, cap =>
    obind (saveObj o cap) fun (cap, b1) =>
    obind (saveObjs os cap) fun (cap, b2) =>
    some (cap, b1 ++ b2)

/-- All the writes of `de430_save_to_binary` after argument validation. -/
def saveAll (d : List BinObj) (cap : Nat) : Option (List Nat) :=
  obind (wr (MAGIC ++ u32le 1 ++ u32le d.length ++ u32le 0) cap) fun (cap, b1) =>
  obind (saveObjs d cap) fun (_, b2) =>
  some (b1 ++ b2)

/-- `de430_save_to_binary`, with the destination file as a sink of `cap`
bytes.  Returns the error code and the bytes of the completed file (empty on
failure; the partially written prefix is not observed by callers). -/
def de430_save_to_binary (d : List BinObj) (cap : Nat) : Int × List Nat :=
  if d.isEmpty then (ERROR_INVALID_CONFIG, [])
  else
    match saveAll d cap with
    | some bs => (ERROR_NONE, bs)
    | none => ( ERROR_FILE_IO, [])

/-! ## Well-formedness of in-memory binary data

These mirror the C types: doubles are 64-bit patterns, `int` counts are
nonnegative and below `2 ^ 31`, the fixed buffers hold a NUL-terminated
string, so names have 1–63 nonzero bytes and constellations at most 31. -/

/-- A point as representable in the C struct (claim C1's hypotheses on it). -/
def ValidPoint (p : BinPoint) : Prop :=
  p.jd < 2 ^ 64 ∧ p.pos0 < 2 ^ 64 ∧ p.pos1 < 2 ^ 64 ∧ p.pos2 < 2 ^ 64 ∧
  p.ra < 2 ^ 64 ∧ p.dec < 2 ^ 64 ∧ p.magnitude < 2 ^ 64 ∧ p.phase < 2 ^ 64 ∧
  p.angular_size < 2 ^ 64 ∧ p.physical_size < 2 ^ 64 ∧ p.albedo < 2 ^ 64 ∧
  p.sun_dist < 2 ^ 64 ∧ p.earth_dist < 2 ^ 64 ∧ p.sun_ang_dist < 2 ^ 64 ∧
  p.theta_edo < 2 ^ 64 ∧ p.ecl0 < 2 ^ 64 ∧ p.ecl1 < 2 ^ 64 ∧ p.ecl2 < 2 ^ 64 ∧
  p.constellation.length ≤ 31 ∧ ∀ b ∈ p.constellation, b < 256 ∧ b ≠ 0

instance (p : BinPoint) : Decidable (ValidPoint p) := by
  unfold ValidPoint; infer_instance

/-- An object with a non-empty name of at most 63 bytes and at least one
point (claim C1's hypotheses). -/
def ValidObj (o : BinObj) : Prop :=
  o.object_name ≠ [] ∧ o.object_name.length ≤ 63 ∧
  (∀ b ∈ o.object_name, b < 256 ∧ b ≠ 0) ∧
  o.points ≠ [] ∧ o.points.length < 2 ^ 31 ∧ ∀ p ∈ o.points, ValidPoint p

instance (o : BinObj) : Decidable (ValidObj o) := by
  unfold ValidObj; infer_instance

/-- A dataset whose objects are all valid and whose count fits in an `int`. -/
def ValidData (d : List BinObj) : Prop :=
  d.length < 2 ^ 31 ∧ ∀ o ∈ d, ValidObj o

instance (d : List BinObj) : Decidable (ValidData d) := by
  unfold ValidData; infer_instance

/-! ## Basic facts about the wire primitives -/

lemma readBytes_append (n : Nat) (bs r : List Nat) (h : bs.length = n) :
    readBytes n (bs ++ r) = some (bs, r) := by
  subst h
  simp [readBytes, List.take_left, List.drop_left]

lemma readBytes_of_le {n : Nat} {s : List Nat} (h : n ≤ s.length) :
    readBytes n s = some (s.take n, s.drop n) := by
  simp [readBytes, h]

lemma take_append_len (l₁ l₂ : List Nat) (n : Nat) (h : l₁.length = n) :
    (l₁ ++ l₂).take n = l₁ := by
  subst h
  exact List.take_left l₁ l₂

lemma drop_append_len (l₁ l₂ : List Nat) (n : Nat) (h : l₁.length = n) :
    (l₁ ++ l₂).drop n = l₂ := by
  subst h
  exact List.drop_left l₁ l₂

lemma f64le_length (x : Nat) : (f64le x).length = 8 := rfl

lemma u32le_length (n : Nat) : (u32le n).length = 4 := rfl

lemma leVal_u32le {n : Nat} (h : n < 2 ^ 32) : leVal (u32le n) = n := by
  simp only [leVal, u32le, List.foldr]
  omega

lemma leVal_f64le {x : Nat} (h : x < 2 ^ 64) : leVal (f64le x) = x := by
  simp only [leVal, f64le, List.foldr]
  omega

lemma readBytes_terminated (bs r : List Nat) :
    readBytes (bs.length + 1) (bs ++ (0 :: r)) = some (bs ++ [0], r) := by
  have h : bs ++ (0 :: r) = (bs ++ [0]) ++ r := by simp
  rw [h, readBytes_append (bs.length + 1) (bs ++ [0]) r (by simp)]

lemma takeWhile_terminated (bs : List Nat) (h : ∀ b ∈ bs, b ≠ 0) :
    (bs ++ [0]).takeWhile (fun b => b != 0) = bs := by
  induction bs with
  | nil => simp
  | cons a t ih =>
    have ha : a ≠ 0 := h a (by simp)
    simp only [List.cons_append, List.takeWhile_cons]
    simp only [bne_iff_ne, ne_eq, ha, not_false_eq_true, if_true]
    rw [ih (fun b hb => h b (by simp [hb]))]

lemma obind_some {α β : Type} (a : α) (f : α → Option β) : obind (some a) f = f a := rfl

lemma obind_none {α β : Type} (f : α → Option β) : obind none f = none := rfl

/-! ## Decoding what the encoder wrote -/

lemma readPoint_enc (p : BinPoint) (hp : ValidPoint p) (r : List Nat) :
    readPoint (encPoint p ++ r) = some (p, r) := by
  obtain ⟨jdv, p0v, p1v, p2v, rav, decv, magv, phv, angv, physv, albv, sdv, edv, sadv, tev, ec0, ec1, ec2, cst⟩ := p
  obtain ⟨h1, h2, h3, h4, h5, h6, h7, h8, h9, h10, h11, h12,
    h13, h14, h15, h16, h17, h18, hlen, hbytes⟩ := hp
  simp only at hlen hbytes h1 h2 h3 h4 h5 h6 h7 h8 h9 h10 h11 h12 h13 h14 h15 h16 h17 h18
  have hno : ¬ 32 < cst.length + 1 := by omega
  have hz : ∀ b ∈ cst, b ≠ 0 := fun b hb => (hbytes b hb).2
  have hsplit : encPoint (BinPoint.mk jdv p0v p1v p2v rav decv magv phv angv physv albv sdv edv sadv tev ec0 ec1 ec2 cst) ++ r =
      (enc18 (BinPoint.mk jdv p0v p1v p2v rav decv magv phv angv physv albv sdv edv sadv tev ec0 ec1 ec2 cst) ++ u32le (cst.length + 1)) ++ ((cst ++ [0]) ++ r) := by
    simp [encPoint, pointHdrBytes, List.append_assoc]
  have hblen : (enc18 (BinPoint.mk jdv p0v p1v p2v rav decv magv phv angv physv albv sdv edv sadv tev ec0 ec1 ec2 cst) ++ u32le (cst.length + 1)).length = 148 := by
    simp [enc18, f64le_length, u32le_length]
  have hcl : leVal (((enc18 (BinPoint.mk jdv p0v p1v p2v rav decv magv phv angv physv albv sdv edv sadv tev ec0 ec1 ec2 cst) ++ u32le (cst.length + 1)).drop 144).take 4) = cst.length + 1 := by
    have hp144 : (enc18 (BinPoint.mk jdv p0v p1v p2v rav decv magv phv angv physv albv sdv edv sadv tev ec0 ec1 ec2 cst)).length = 144 := by
      simp [enc18, f64le_length]
    rw [drop_append_len _ _ 144 hp144]
    have ht : (u32le (cst.length + 1)).take 4 = u32le (cst.length + 1) := by
      simp [u32le]
    rw [ht, leVal_u32le (by omega)]
  have hf0 : leVal ((enc18 (BinPoint.mk jdv p0v p1v p2v rav decv magv phv angv physv albv sdv edv sadv tev ec0 ec1 ec2 cst) ++ u32le (cst.length + 1)).take 8) = jdv := by
    have e : enc18 (BinPoint.mk jdv p0v p1v p2v rav decv magv phv angv physv albv sdv edv sadv tev ec0 ec1 ec2 cst) ++ u32le (cst.length + 1) = f64le jdv ++ (f64le p0v ++ f64le p1v ++ f64le p2v ++ f64le rav ++ f64le decv ++ f64le magv ++ f64le phv ++ f64le angv ++ f64le physv ++ f64le albv ++ f64le sdv ++ f64le edv ++ f64le sadv ++ f64le tev ++ f64le ec0 ++ f64le ec1 ++ f64le ec2 ++ u32le (cst.length + 1)) := by
      simp [enc18, List.append_assoc]
    rw [e, take_append_len (f64le jdv) _ 8 rfl, leVal_f64le h1]
  have hf1 : leVal (((enc18 (BinPoint.mk jdv p0v p1v p2v rav decv magv phv angv physv albv sdv edv sadv tev ec0 ec1 ec2 cst) ++ u32le (cst.length + 1)).drop 8).take 8) = p0v := by
    have e : enc18 (BinPoint.mk jdv p0v p1v p2v rav decv magv phv angv physv albv sdv edv sadv tev ec0 ec1 ec2 cst) ++ u32le (cst.length + 1) = (f64le jdv) ++ (f64le p0v ++ (f64le p1v ++ f64le p2v ++ f64le rav ++ f64le decv ++ f64le magv ++ f64le phv ++ f64le angv ++ f64le physv ++ f64le albv ++ f64le sdv ++ f64le edv ++ f64le sadv ++ f64le tev ++ f64le ec0 ++ f64le ec1 ++ f64le ec2 ++ u32le (cst.length + 1))) := by
      simp [enc18, List.append_assoc]
    have hpre : (f64le jdv).length = 8 := by
      simp [f64le_length]
    rw [e, drop_append_len _ _ 8 hpre, take_append_len (f64le p0v) _ 8 rfl,
      leVal_f64le h2]
  have hf2 : leVal (((enc18 (BinPoint.mk jdv p0v p1v p2v rav decv magv phv angv physv albv sdv edv sadv tev ec0 ec1 ec2 cst) ++ u32le (cst.length + 1)).drop 16).take 8) = p1v := by
    have e : enc18 (BinPoint.mk jdv p0v p1v p2v rav decv magv phv angv physv albv sdv edv sadv tev ec0 ec1 ec2 cst) ++ u32le (cst.length + 1) = (f64le jdv ++ f64le p0v) ++ (f64le p1v ++ (f64le p2v ++ f64le rav ++ f64le decv ++ f64le magv ++ f64le phv ++ f64le angv ++ f64le physv ++ f64le albv ++ f64le sdv ++ f64le edv ++ f64le sadv ++ f64le tev ++ f64le ec0 ++ f64le ec1 ++ f64le ec2 ++ u32le (cst.length + 1))) := by
      simp [enc18, List.append_assoc]
    have hpre : (f64le jdv ++ f64le p0v).length = 16 := by
      simp [f64le_length]
    rw [e, drop_append_len _ _ 16 hpre, take_append_len (f64le p1v) _ 8 rfl,
      leVal_f64le h3]
  have hf3 : leVal (((enc18 (BinPoint.mk jdv p0v p1v p2v rav decv magv phv angv physv albv sdv edv sadv tev ec0 ec1 ec2 cst) ++ u32le (cst.length + 1)).drop 24).take 8) = p2v := by
    have e : enc18 (BinPoint.mk jdv p0v p1v p2v rav decv magv phv angv physv albv sdv edv sadv tev ec0 ec1 ec2 cst) ++ u32le (cst.length + 1) = (f64le jdv ++ f64le p0v ++ f64le p1v) ++ (f64le p2v ++ (f64le rav ++ f64le decv ++ f64le magv ++ f64le phv ++ f64le angv ++ f64le physv ++ f64le albv ++ f64le sdv ++ f64le edv ++ f64le sadv ++ f64le tev ++ f64le ec0 ++ f64le ec1 ++ f64le ec2 ++ u32le (cst.length + 1))) := by
      simp [enc18, List.append_assoc]
    have hpre : (f64le jdv ++ f64le p0v ++ f64le p1v).length = 24 := by
      simp [f64le_length]
    rw [e, drop_append_len _ _ 24 hpre, take_append_len (f64le p2v) _ 8 rfl,
      leVal_f64le h4]
  have hf4 : leVal (((enc18 (BinPoint.mk jdv p0v p1v p2v rav decv magv phv angv physv albv sdv edv sadv tev ec0 ec1 ec2 cst) ++ u32le (cst.length + 1)).drop 32).take 8) = rav := by
    have e : enc18 (BinPoint.mk jdv p0v p1v p2v rav decv magv phv angv physv albv sdv edv sadv tev ec0 ec1 ec2 cst) ++ u32le (cst.length + 1) = (f64le jdv ++ f64le p0v ++ f64le p1v ++ f64le p2v) ++ (f64le rav ++ (f64le decv ++ f64le magv ++ f64le phv ++ f64le angv ++ f64le physv ++ f64le albv ++ f64le sdv ++ f64le edv ++ f64le sadv ++ f64le tev ++ f64le ec0 ++ f64le ec1 ++ f64le ec2 ++ u32le (cst.length + 1))) := by
      simp [enc18, List.append_assoc]
    have hpre : (f64le jdv ++ f64le p0v ++ f64le p1v ++ f64le p2v).length = 32 := by
      simp [f64le_length]
    rw [e, drop_append_len _ _ 32 hpre, take_append_len (f64le rav) _ 8 rfl,
      leVal_f64le h5]
  have hf5 : leVal (((enc18 (BinPoint.mk jdv p0v p1v p2v rav decv magv phv angv physv albv sdv edv sadv tev ec0 ec1 ec2 cst) ++ u32le (cst.length + 1)).drop 40).take 8) = decv := by
    have e : enc18 (BinPoint.mk jdv p0v p1v p2v rav decv magv phv angv physv albv sdv edv sadv tev ec0 ec1 ec2 cst) ++ u32le (cst.length + 1) = (f64le jdv ++ f64le p0v ++ f64le p1v ++ f64le p2v ++ f64le rav) ++ (f64le decv ++ (f64le magv ++ f64le phv ++ f64le angv ++ f64le physv ++ f64le albv ++ f64le sdv ++ f64le edv ++ f64le sadv ++ f64le tev ++ f64le ec0 ++ f64le ec1 ++ f64le ec2 ++ u32le (cst.length + 1))) := by
      simp [enc18, List.append_assoc]
    have hpre : (f64le jdv ++ f64le p0v ++ f64le p1v ++ f64le p2v ++ f64le rav).length = 40 := by
      simp [f64le_length]
    rw [e, drop_append_len _ _ 40 hpre, take_append_len (f64le decv) _ 8 rfl,
      leVal_f64le h6]
  have hf6 : leVal (((enc18 (BinPoint.mk jdv p0v p1v p2v rav decv magv phv angv physv albv sdv edv sadv tev ec0 ec1 ec2 cst) ++ u32le (cst.length + 1)).drop 48).take 8) = magv := by
    have e : enc18 (BinPoint.mk jdv p0v p1v p2v rav decv magv phv angv physv albv sdv edv sadv tev ec0 ec1 ec2 cst) ++ u32le (cst.length + 1) = (f64le jdv ++ f64le p0v ++ f64le p1v ++ f64le p2v ++ f64le rav ++ f64le decv) ++ (f64le magv ++ (f64le phv ++ f64le angv ++ f64le physv ++ f64le albv ++ f64le sdv ++ f64le edv ++ f64le sadv ++ f64le tev ++ f64le ec0 ++ f64le ec1 ++ f64le ec2 ++ u32le (cst.length + 1))) := by
      simp [enc18, List.append_assoc]
    have hpre : (f64le jdv ++ f64le p0v ++ f64le p1v ++ f64le p2v ++ f64le rav ++ f64le decv).length = 48 := by
      simp [f64le_length]
    rw [e, drop_append_len _ _ 48 hpre, take_append_len (f64le magv) _ 8 rfl,
      leVal_f64le h7]
  have hf7 : leVal (((enc18 (BinPoint.mk jdv p0v p1v p2v rav decv magv phv angv physv albv sdv edv sadv tev ec0 ec1 ec2 cst) ++ u32le (cst.length + 1)).drop 56).take 8) = phv := by
    have e : enc18 (BinPoint.mk jdv p0v p1v p2v rav decv magv phv angv physv albv sdv edv sadv tev ec0 ec1 ec2 cst) ++ u32le (cst.length + 1) = (f64le jdv ++ f64le p0v ++ f64le p1v ++ f64le p2v ++ f64le rav ++ f64le decv ++ f64le magv) ++ (f64le phv ++ (f64le angv ++ f64le physv ++ f64le albv ++ f64le sdv ++ f64le edv ++ f64le sadv ++ f64le tev ++ f64le ec0 ++ f64le ec1 ++ f64le ec2 ++ u32le (cst.length + 1))) := by
      simp [enc18, List.append_assoc]
    have hpre : (f64le jdv ++ f64le p0v ++ f64le p1v ++ f64le p2v ++ f64le rav ++ f64le decv ++ f64le magv).length = 56 := by
      simp [f64le_length]
    rw [e, drop_append_len _ _ 56 hpre, take_append_len (f64le phv) _ 8 rfl,
      leVal_f64le h8]
  have hf8 : leVal (((enc18 (BinPoint.mk jdv p0v p1v p2v rav decv magv phv angv physv albv sdv edv sadv tev ec0 ec1 ec2 cst) ++ u32le (cst.length + 1)).drop 64).take 8) = angv := by
    have e : enc18 (BinPoint.mk jdv p0v p1v p2v rav decv magv phv angv physv albv sdv edv sadv tev ec0 ec1 ec2 cst) ++ u32le (cst.length + 1) = (f64le jdv ++ f64le p0v ++ f64le p1v ++ f64le p2v ++ f64le rav ++ f64le decv ++ f64le magv ++ f64le phv) ++ (f64le angv ++ (f64le physv ++ f64le albv ++ f64le sdv ++ f64le edv ++ f64le sadv ++ f64le tev ++ f64le ec0 ++ f64le ec1 ++ f64le ec2 ++ u32le (cst.length + 1))) := by
      simp [enc18, List.append_assoc]
    have hpre : (f64le jdv ++ f64le p0v ++ f64le p1v ++ f64le p2v ++ f64le rav ++ f64le decv ++ f64le magv ++ f64le phv).length = 64 := by
      simp [f64le_length]
    rw [e, drop_append_len _ _ 64 hpre, take_append_len (f64le angv) _ 8 rfl,
      leVal_f64le h9]
  have hf9 : leVal (((enc18 (BinPoint.mk jdv p0v p1v p2v rav decv magv phv angv physv albv sdv edv sadv tev ec0 ec1 ec2 cst) ++ u32le (cst.length + 1)).drop 72).take 8) = physv := by
    have e : enc18 (BinPoint.mk jdv p0v p1v p2v rav decv magv phv angv physv albv sdv edv sadv tev ec0 ec1 ec2 cst) ++ u32le (cst.length + 1) = (f64le jdv ++ f64le p0v ++ f64le p1v ++ f64le p2v ++ f64le rav ++ f64le decv ++ f64le magv ++ f64le phv ++ f64le angv) ++ (f64le physv ++ (f64le albv ++ f64le sdv ++ f64le edv ++ f64le sadv ++ f64le tev ++ f64le ec0 ++ f64le ec1 ++ f64le ec2 ++ u32le (cst.length + 1))) := by
      simp [enc18, List.append_assoc]
    have hpre : (f64le jdv ++ f64le p0v ++ f64le p1v ++ f64le p2v ++ f64le rav ++ f64le decv ++ f64le magv ++ f64le phv ++ f64le angv).length = 72 := by
      simp [f64le_length]
    rw [e, drop_append_len _ _ 72 hpre, take_append_len (f64le physv) _ 8 rfl,
      leVal_f64le h10]
  have hf10 : leVal (((enc18 (BinPoint.mk jdv p0v p1v p2v rav decv magv phv angv physv albv sdv edv sadv tev ec0 ec1 ec2 cst) ++ u32le (cst.length + 1)).drop 80).take 8) = albv := by
    have e : enc18 (BinPoint.mk jdv p0v p1v p2v rav decv magv phv angv physv albv sdv edv sadv tev ec0 ec1 ec2 cst) ++ u32le (cst.length + 1) = (f64le jdv ++ f64le p0v ++ f64le p1v ++ f64le p2v ++ f64le rav ++ f64le decv ++ f64le magv ++ f64le phv ++ f64le angv ++ f64le physv) ++ (f64le albv ++ (f64le sdv ++ f64le edv ++ f64le sadv ++ f64le tev ++ f64le ec0 ++ f64le ec1 ++ f64le ec2 ++ u32le (cst.length + 1))) := by
      simp [enc18, List.append_assoc]
    have hpre : (f64le jdv ++ f64le p0v ++ f64le p1v ++ f64le p2v ++ f64le rav ++ f64le decv ++ f64le magv ++ f64le phv ++ f64le angv ++ f64le physv).length = 80 := by
      simp [f64le_length]
    rw [e, drop_append_len _ _ 80 hpre, take_append_len (f64le albv) _ 8 rfl,
      leVal_f64le h11]
  have hf11 : leVal (((enc18 (BinPoint.mk jdv p0v p1v p2v rav decv magv phv angv physv albv sdv edv sadv tev ec0 ec1 ec2 cst) ++ u32le (cst.length + 1)).drop 88).take 8) = sdv := by
    have e : enc18 (BinPoint.mk jdv p0v p1v p2v rav decv magv phv angv physv albv sdv edv sadv tev ec0 ec1 ec2 cst) ++ u32le (cst.length + 1) = (f64le jdv ++ f64le p0v ++ f64le p1v ++ f64le p2v ++ f64le rav ++ f64le decv ++ f64le magv ++ f64le phv ++ f64le angv ++ f64le physv ++ f64le albv) ++ (f64le sdv ++ (f64le edv ++ f64le sadv ++ f64le tev ++ f64le ec0 ++ f64le ec1 ++ f64le ec2 ++ u32le (cst.length + 1))) := by
      simp [enc18, List.append_assoc]
    have hpre : (f64le jdv ++ f64le p0v ++ f64le p1v ++ f64le p2v ++ f64le rav ++ f64le decv ++ f64le magv ++ f64le phv ++ f64le angv ++ f64le physv ++ f64le albv).length = 88 := by
      simp [f64le_length]
    rw [e, drop_append_len _ _ 88 hpre, take_append_len (f64le sdv) _ 8 rfl,
      leVal_f64le h12]
  have hf12 : leVal (((enc18 (BinPoint.mk jdv p0v p1v p2v rav decv magv phv angv physv albv sdv edv sadv tev ec0 ec1 ec2 cst) ++ u32le (cst.length + 1)).drop 96).take 8) = edv := by
    have e : enc18 (BinPoint.mk jdv p0v p1v p2v rav decv magv phv angv physv albv sdv edv sadv tev ec0 ec1 ec2 cst) ++ u32le (cst.length + 1) = (f64le jdv ++ f64le p0v ++ f64le p1v ++ f64le p2v ++ f64le rav ++ f64le decv ++ f64le magv ++ f64le phv ++ f64le angv ++ f64le physv ++ f64le albv ++ f64le sdv) ++ (f64le edv ++ (f64le sadv ++ f64le tev ++ f64le ec0 ++ f64le ec1 ++ f64le ec2 ++ u32le (cst.length + 1))) := by
      simp [enc18, List.append_assoc]
    have hpre : (f64le jdv ++ f64le p0v ++ f64le p1v ++ f64le p2v ++ f64le rav ++ f64le decv ++ f64le magv ++ f64le phv ++ f64le angv ++ f64le physv ++ f64le albv ++ f64le sdv).length = 96 := by
      simp [f64le_length]
    rw [e, drop_append_len _ _ 96 hpre, take_append_len (f64le edv) _ 8 rfl,
      leVal_f64le h13]
  have hf13 : leVal (((enc18 (BinPoint.mk jdv p0v p1v p2v rav decv magv phv angv physv albv sdv edv sadv tev ec0 ec1 ec2 cst) ++ u32le (cst.length + 1)).drop 104).take 8) = sadv := by
    have e : enc18 (BinPoint.mk jdv p0v p1v p2v rav decv magv phv angv physv albv sdv edv sadv tev ec0 ec1 ec2 cst) ++ u32le (cst.length + 1) = (f64le jdv ++ f64le p0v ++ f64le p1v ++ f64le p2v ++ f64le rav ++ f64le decv ++ f64le magv ++ f64le phv ++ f64le angv ++ f64le physv ++ f64le albv ++ f64le sdv ++ f64le edv) ++ (f64le sadv ++ (f64le tev ++ f64le ec0 ++ f64le ec1 ++ f64le ec2 ++ u32le (cst.length + 1))) := by
      simp [enc18, List.append_assoc]
    have hpre : (f64le jdv ++ f64le p0v ++ f64le p1v ++ f64le p2v ++ f64le rav ++ f64le decv ++ f64le magv ++ f64le phv ++ f64le angv ++ f64le physv ++ f64le albv ++ f64le sdv ++ f64le edv).length = 104 := by
      simp [f64le_length]
    rw [e, drop_append_len _ _ 104 hpre, take_append_len (f64le sadv) _ 8 rfl,
      leVal_f64le h14]
  have hf14 : leVal (((enc18 (BinPoint.mk jdv p0v p1v p2v rav decv magv phv angv physv albv sdv edv sadv tev ec0 ec1 ec2 cst) ++ u32le (cst.length + 1)).drop 112).take 8) = tev := by
    have e : enc18 (BinPoint.mk jdv p0v p1v p2v rav decv magv phv angv physv albv sdv edv sadv tev ec0 ec1 ec2 cst) ++ u32le (cst.length + 1) = (f64le jdv ++ f64le p0v ++ f64le p1v ++ f64le p2v ++ f64le rav ++ f64le decv ++ f64le magv ++ f64le phv ++ f64le angv ++ f64le physv ++ f64le albv ++ f64le sdv ++ f64le edv ++ f64le sadv) ++ (f64le tev ++ (f64le ec0 ++ f64le ec1 ++ f64le ec2 ++ u32le (cst.length + 1))) := by
      simp [enc18, List.append_assoc]
    have hpre : (f64le jdv ++ f64le p0v ++ f64le p1v ++ f64le p2v ++ f64le rav ++ f64le decv ++ f64le magv ++ f64le phv ++ f64le angv ++ f64le physv ++ f64le albv ++ f64le sdv ++ f64le edv ++ f64le sadv).length = 112 := by
      simp [f64le_length]
    rw [e, drop_append_len _ _ 112 hpre, take_append_len (f64le tev) _ 8 rfl,
      leVal_f64le h15]
  have hf15 : leVal (((enc18 (BinPoint.mk jdv p0v p1v p2v rav decv magv phv angv physv albv sdv edv sadv tev ec0 ec1 ec2 cst) ++ u32le (cst.length + 1)).drop 120).take 8) = ec0 := by
    have e : enc18 (BinPoint.mk jdv p0v p1v p2v rav decv magv phv angv physv albv sdv edv sadv tev ec0 ec1 ec2 cst) ++ u32le (cst.length + 1) = (f64le jdv ++ f64le p0v ++ f64le p1v ++ f64le p2v ++ f64le rav ++ f64le decv ++ f64le magv ++ f64le phv ++ f64le angv ++ f64le physv ++ f64le albv ++ f64le sdv ++ f64le edv ++ f64le sadv ++ f64le tev) ++ (f64le ec0 ++ (f64le ec1 ++ f64le ec2 ++ u32le (cst.length + 1))) := by
      simp [enc18, List.append_assoc]
    have hpre : (f64le jdv ++ f64le p0v ++ f64le p1v ++ f64le p2v ++ f64le rav ++ f64le decv ++ f64le magv ++ f64le phv ++ f64le angv ++ f64le physv ++ f64le albv ++ f64le sdv ++ f64le edv ++ f64le sadv ++ f64le tev).length = 120 := by
      simp [f64le_length]
    rw [e, drop_append_len _ _ 120 hpre, take_append_len (f64le ec0) _ 8 rfl,
      leVal_f64le h16]
  have hf16 : leVal (((enc18 (BinPoint.mk jdv p0v p1v p2v rav decv magv phv angv physv albv sdv edv sadv tev ec0 ec1 ec2 cst) ++ u32le (cst.length + 1)).drop 128).take 8) = ec1 := by
    have e : enc18 (BinPoint.mk jdv p0v p1v p2v rav decv magv phv angv physv albv sdv edv sadv tev ec0 ec1 ec2 cst) ++ u32le (cst.length + 1) = (f64le jdv ++ f64le p0v ++ f64le p1v ++ f64le p2v ++ f64le rav ++ f64le decv ++ f64le magv ++ f64le phv ++ f64le angv ++ f64le physv ++ f64le albv ++ f64le sdv ++ f64le edv ++ f64le sadv ++ f64le tev ++ f64le ec0) ++ (f64le ec1 ++ (f64le ec2 ++ u32le (cst.length + 1))) := by
      simp [enc18, List.append_assoc]
    have hpre : (f64le jdv ++ f64le p0v ++ f64le p1v ++ f64le p2v ++ f64le rav ++ f64le decv ++ f64le magv ++ f64le phv ++ f64le angv ++ f64le physv ++ f64le albv ++ f64le sdv ++ f64le edv ++ f64le sadv ++ f64le tev ++ f64le ec0).length = 128 := by
      simp [f64le_length]
    rw [e, drop_append_len _ _ 128 hpre, take_append_len (f64le ec1) _ 8 rfl,
      leVal_f64le h17]
  have hf17 : leVal (((enc18 (BinPoint.mk jdv p0v p1v p2v rav decv magv phv angv physv albv sdv edv sadv tev ec0 ec1 ec2 cst) ++ u32le (cst.length + 1)).drop 136).take 8) = ec2 := by
    have e : enc18 (BinPoint.mk jdv p0v p1v p2v rav decv magv phv angv physv albv sdv edv sadv tev ec0 ec1 ec2 cst) ++ u32le (cst.length + 1) = (f64le jdv ++ f64le p0v ++ f64le p1v ++ f64le p2v ++ f64le rav ++ f64le decv ++ f64le magv ++ f64le phv ++ f64le angv ++ f64le physv ++ f64le albv ++ f64le sdv ++ f64le edv ++ f64le sadv ++ f64le tev ++ f64le ec0 ++ f64le ec1) ++ (f64le ec2 ++ (u32le (cst.length + 1))) := by
      simp [enc18, List.append_assoc]
    have hpre : (f64le jdv ++ f64le p0v ++ f64le p1v ++ f64le p2v ++ f64le rav ++ f64le decv ++ f64le magv ++ f64le phv ++ f64le angv ++ f64le physv ++ f64le albv ++ f64le sdv ++ f64le edv ++ f64le sadv ++ f64le tev ++ f64le ec0 ++ f64le ec1).length = 136 := by
      simp [f64le_length]
    rw [e, drop_append_len _ _ 136 hpre, take_append_len (f64le ec2) _ 8 rfl,
      leVal_f64le h18]
  simp only [readPoint, hsplit,
    readBytes_append 148 (enc18 (BinPoint.mk jdv p0v p1v p2v rav decv magv phv angv physv albv sdv edv sadv tev ec0 ec1 ec2 cst) ++ u32le (cst.length + 1)) ((cst ++ [0]) ++ r) hblen, obind_some, hcl,
    if_neg hno, readBytes_append (cst.length + 1) (cst ++ [0]) r (by simp),
    takeWhile_terminated cst hz, hf0, hf1, hf2, hf3, hf4, hf5, hf6, hf7, hf8, hf9, hf10, hf11, hf12, hf13, hf14, hf15, hf16, hf17]

lemma readPoints_enc : ∀ (ps : List BinPoint) (r : List Nat),
    (∀ p ∈ ps, ValidPoint p) →
    readPoints ps.length (encPoints ps ++ r) = some (ps, r) := by
  intro ps
  induction ps with
  | nil => intro r _; simp [readPoints, encPoints]
  | cons p t ih =>
    intro r h
    simp only [encPoints, List.length_cons, List.append_assoc]
    simp only [readPoints, readPoint_enc p (h p (by simp)), obind_some,
      ih r (fun q hq => h q (by simp [hq]))]

lemma readObj_enc (o : BinObj) (ho : ValidObj o) (r : List Nat) :
    readObj (encObj o ++ r) = some (o, r) := by
  obtain ⟨nm, pts⟩ := o
  obtain ⟨hne, hlen, hbytes, hpne, hplen, hpts⟩ := ho
  simp only at hne hlen hbytes hpne hplen hpts
  have hz : ∀ b ∈ nm, b ≠ 0 := fun b hb => (hbytes b hb).2
  have hsplit : encObj (BinObj.mk nm pts) ++ r =
      (u32le (nm.length + 1) ++ u32le pts.length) ++ ((nm ++ [0]) ++ (encPoints pts ++ r)) := by
    simp [encObj, List.append_assoc]
  have ha : leVal ((u32le (nm.length + 1) ++ u32le pts.length).take 4) = nm.length + 1 := by
    rw [take_append_len (u32le (nm.length + 1)) _ 4 rfl, leVal_u32le (by omega)]
  have hb2 : leVal (((u32le (nm.length + 1) ++ u32le pts.length).drop 4).take 4) = pts.length := by
    rw [drop_append_len (u32le (nm.length + 1)) _ 4 rfl]
    have ht : (u32le pts.length).take 4 = u32le pts.length := by simp [u32le]
    rw [ht, leVal_u32le (by omega)]
  simp only [readObj, hsplit,
    readBytes_append 8 (u32le (nm.length + 1) ++ u32le pts.length)
      ((nm ++ [0]) ++ (encPoints pts ++ r)) rfl,
    obind_some, ha, hb2,
    if_neg (show ¬ 64 < nm.length + 1 by omega),
    readBytes_append (nm.length + 1) (nm ++ [0]) (encPoints pts ++ r) (by simp),
    takeWhile_terminated nm hz, readPoints_enc pts r hpts]

lemma readObjs_enc : ∀ (d : List BinObj) (r : List Nat),
    (∀ o ∈ d, ValidObj o) →
    readObjs d.length (encObjs d ++ r) = some (d, r) := by
  intro d
  induction d with
  | nil => intro r _; simp [readObjs, encObjs]
  | cons o t ih =>
    intro r h
    simp only [encObjs, List.length_cons, List.append_assoc]
    simp only [readObjs, readObj_enc o (h o (by simp)), obind_some,
      ih r (fun q hq => h q (by simp [hq]))]

lemma readFileHeader_encFile (d : List BinObj) (h : d.length < 2 ^ 32) :
    readFileHeader (encFile d) = some (MAGIC, 1, d.length, encObjs d) := by
  have hsplit : encFile d =
      (MAGIC ++ u32le 1 ++ u32le d.length ++ u32le 0) ++ encObjs d := by
    simp [encFile]
  have h16 : (MAGIC ++ u32le 1 ++ u32le d.length ++ u32le 0).length = 16 := by
    simp [MAGIC, u32le_length]
  have hm : (MAGIC ++ u32le 1 ++ u32le d.length ++ u32le 0).take 4 = MAGIC := by
    have e : MAGIC ++ u32le 1 ++ u32le d.length ++ u32le 0 =
        MAGIC ++ (u32le 1 ++ (u32le d.length ++ u32le 0)) := by
      simp [List.append_assoc]
    rw [e, take_append_len MAGIC _ 4 rfl]
  have hv : leVal (((MAGIC ++ u32le 1 ++ u32le d.length ++ u32le 0).drop 4).take 4) = 1 := by
    have e : MAGIC ++ u32le 1 ++ u32le d.length ++ u32le 0 =
        MAGIC ++ (u32le 1 ++ (u32le d.length ++ u32le 0)) := by
      simp [List.append_assoc]
    rw [e, drop_append_len MAGIC _ 4 rfl, take_append_len (u32le 1) _ 4 rfl,
      leVal_u32le (by omega)]
  have hc : leVal (((MAGIC ++ u32le 1 ++ u32le d.length ++ u32le 0).drop 8).take 4) = d.length := by
    have e : MAGIC ++ u32le 1 ++ u32le d.length ++ u32le 0 =
        (MAGIC ++ u32le 1) ++ (u32le d.length ++ u32le 0) := by
      simp [List.append_assoc]
    rw [e, drop_append_len (MAGIC ++ u32le 1) _ 8 rfl,
      take_append_len (u32le d.length) _ 4 rfl, leVal_u32le h]
  rw [hsplit]
  simp only [readFileHeader,
    readBytes_append 16 (MAGIC ++ u32le 1 ++ u32le d.length ++ u32le 0) (encObjs d) h16,
    obind_some, hm, hv, hc]

lemma load_encFile (d : List BinObj) (h : ValidData d) (init : Option (List BinObj)) :
    de430_load_from_binary (encFile d) init = (ERROR_NONE, some d) := by
  obtain ⟨hcnt, hobjs⟩ := h
  have hro : readObjs d.length (encObjs d) = some (d, []) := by
    have h2 := readObjs_enc d [] hobjs
    simpa using h2
  simp [de430_load_from_binary, readFileHeader_encFile d (by omega), hro]

/-! ## What the binary encoder's checked writes produce -/

lemma wr_le {bs : List Nat} {cap : Nat} (h : bs.length ≤ cap) :
    wr bs cap = some (cap - bs.length, bs) := by
  rw [wr, if_pos h]

lemma wr_gt {bs : List Nat} {cap : Nat} (h : cap < bs.length) :
    wr bs cap = none := by
  rw [wr, if_neg (by omega)]

lemma savePoint_eq (p : BinPoint) (cap : Nat) :
    savePoint p cap =
      if (encPoint p).length ≤ cap then
        some (cap - (encPoint p).length, encPoint p)
      else none := by
  have hlen : (encPoint p).length =
      (pointHdrBytes p).length + (p.constellation.length + 1) := by
    simp [encPoint]
  rcases le_or_lt ((pointHdrBytes p).length) cap with h1 | h1
  · rcases le_or_lt (p.constellation.length + 1) (cap - (pointHdrBytes p).length) with h2 | h2
    · have h2l : (p.constellation ++ [0]).length ≤ cap - (pointHdrBytes p).length := by
        simp only [List.length_append, List.length_cons, List.length_nil]
        omega
      rw [if_pos (show (encPoint p).length ≤ cap by omega)]
      simp only [savePoint, wr_le h1, obind_some, wr_le h2l]
      simp only [Option.some.injEq, Prod.mk.injEq, encPoint, List.length_append,
        List.length_cons, List.length_nil, and_true]
      omega
    · have h2l : cap - (pointHdrBytes p).length < (p.constellation ++ [0]).length := by
        simp only [List.length_append, List.length_cons, List.length_nil]
        omega
      rw [if_neg (show ¬ (encPoint p).length ≤ cap by omega)]
      simp only [savePoint, wr_le h1, obind_some, wr_gt h2l, obind_none]
  · rw [if_neg (show ¬ (encPoint p).length ≤ cap by omega)]
    simp only [savePoint, wr_gt h1, obind_none]

lemma savePoints_eq : ∀ (ps : List BinPoint) (cap : Nat),
    savePoints ps cap =
      if (encPoints ps).length ≤ cap then
        some (cap - (encPoints ps).length, encPoints ps)
      else none := by
  intro ps
  induction ps with
  | nil => intro cap; simp [savePoints, encPoints]
  | cons p t ih =>
    intro cap
    have hlen : (encPoints (p :: t)).length = (encPoint p).length + (encPoints t).length := by
      simp [encPoints]
    rcases le_or_lt ((encPoint p).length) cap with h1 | h1
    · rcases le_or_lt ((encPoints t).length) (cap - (encPoint p).length) with h2 | h2
      · rw [if_pos (show (encPoints (p :: t)).length ≤ cap by omega)]
        simp only [savePoints, savePoint_eq, if_pos h1, obind_some, ih, if_pos h2]
        simp only [Option.some.injEq, Prod.mk.injEq, encPoints, List.length_append,
          and_true]
        omega
      · rw [if_neg (show ¬ (encPoints (p :: t)).length ≤ cap by omega)]
        simp only [savePoints, savePoint_eq, if_pos h1, obind_some, ih, if_neg
          (show ¬ (encPoints t).length ≤ cap - (encPoint p).length by omega), obind_none]
    · rw [if_neg (show ¬ (encPoints (p :: t)).length ≤ cap by omega)]
      simp only [savePoints, savePoint_eq, if_neg
        (show ¬ (encPoint p).length ≤ cap by omega), obind_none]

lemma saveObj_eq (o : BinObj) (cap : Nat) :
    saveObj o cap =
      if (encObj o).length ≤ cap then
        some (cap - (encObj o).length, encObj o)
      else none := by
  have hlen : (encObj o).length =
      (u32le (o.object_name.length + 1) ++ u32le o.points.length).length +
        ((o.object_name ++ [0]).length + (encPoints o.points).length) := by
    simp only [encObj, List.length_append, List.length_cons, List.length_nil]
  rcases le_or_lt ((u32le (o.object_name.length + 1) ++ u32le o.points.length).length) cap
    with h1 | h1
  · rcases le_or_lt ((o.object_name ++ [0]).length)
      (cap - (u32le (o.object_name.length + 1) ++ u32le o.points.length).length) with h2 | h2
    · rcases le_or_lt ((encPoints o.points).length)
        (cap - (u32le (o.object_name.length + 1) ++ u32le o.points.length).length -
          (o.object_name ++ [0]).length) with h3 | h3
      · rw [if_pos (show (encObj o).length ≤ cap by omega)]
        simp only [saveObj, wr_le h1, obind_some, wr_le h2, savePoints_eq, if_pos h3]
        simp only [Option.some.injEq, Prod.mk.injEq, encObj, List.length_append,
          and_true]
        omega
      · rw [if_neg (show ¬ (encObj o).length ≤ cap by omega)]
        simp only [saveObj, wr_le h1, obind_some, wr_le h2, savePoints_eq, if_neg
          (show ¬ (encPoints o.points).length ≤
            cap - (u32le (o.object_name.length + 1) ++ u32le o.points.length).length -
              (o.object_name ++ [0]).length by omega), obind_none]
    · rw [if_neg (show ¬ (encObj o).length ≤ cap by omega)]
      simp only [saveObj, wr_le h1, obind_some, wr_gt h2, obind_none]
  · rw [if_neg (show ¬ (encObj o).length ≤ cap by omega)]
    simp only [saveObj, wr_gt h1, obind_none]

lemma saveObjs_eq : ∀ (d : List BinObj) (cap : Nat),
    saveObjs d cap =
      if (encObjs d).length ≤ cap then
        some (cap - (encObjs d).length, encObjs d)
      else none := by
  intro d
  induction d with
  | nil => intro cap; simp [saveObjs, encObjs]
  | cons o t ih =>
    intro cap
    have hlen : (encObjs (o :: t)).length = (encObj o).length + (encObjs t).length := by
      simp [encObjs]
    rcases le_or_lt ((encObj o).length) cap with h1 | h1
    · rcases le_or_lt ((encObjs t).length) (cap - (encObj o).length) with h2 | h2
      · rw [if_pos (show (encObjs (o :: t)).length ≤ cap by omega)]
        simp only [saveObjs, saveObj_eq, if_pos h1, obind_some, ih, if_pos h2]
        simp only [Option.some.injEq, Prod.mk.injEq, encObjs, List.length_append,
          and_true]
        omega
      · rw [if_neg (show ¬ (encObjs (o :: t)).length ≤ cap by omega)]
        simp only [saveObjs, saveObj_eq, if_pos h1, obind_some, ih, if_neg
          (show ¬ (encObjs t).length ≤ cap - (encObj o).length by omega), obind_none]
    · rw [if_neg (show ¬ (encObjs (o :: t)).length ≤ cap by omega)]
      simp only [saveObjs, saveObj_eq, if_neg
        (show ¬ (encObj o).length ≤ cap by omega), obind_none]

lemma saveAll_eq (d : List BinObj) (cap : Nat) :
    saveAll d cap = if (encFile d).length ≤ cap then some (encFile d) else none := by
  have hlen : (encFile d).length =
      (MAGIC ++ u32le 1 ++ u32le d.length ++ u32le 0).length + (encObjs d).length := by
    simp only [encFile, List.length_append]
  rcases le_or_lt ((MAGIC ++ u32le 1 ++ u32le d.length ++ u32le 0).length) cap with h1 | h1
  · rcases le_or_lt ((encObjs d).length)
      (cap - (MAGIC ++ u32le 1 ++ u32le d.length ++ u32le 0).length) with h2 | h2
    · rw [if_pos (show (encFile d).length ≤ cap by omega)]
      simp only [saveAll, wr_le h1, obind_some, saveObjs_eq, if_pos h2]
      simp only [Option.some.injEq, encFile]
    · rw [if_neg (show ¬ (encFile d).length ≤ cap by omega)]
      simp only [saveAll, wr_le h1, obind_some, saveObjs_eq, if_neg
        (show ¬ (encObjs d).length ≤
          cap - (MAGIC ++ u32le 1 ++ u32le d.length ++ u32le 0).length by omega), obind_none]
  · rw [if_neg (show ¬ (encFile d).length ≤ cap by omega)]
    simp only [saveAll, wr_gt h1, obind_none]

/-- A dataset exercising the exact capacity bounds: a 63-byte name (so
`name_length` is written as 64) and a 31-byte constellation (so
`constellation_length` is written as 32). -/
def capData : List BinObj :=
  [⟨List.replicate 63 97,
    [⟨0, 0, 0, 0, 0, 0, 0, 0, 0, 0, 0, 0, 0, 0, 0, 0, 0, 0, List.replicate 31 98⟩]⟩]

/-! ## A generic file-header computation -/

lemma readFileHeader_hdr (c : Nat) (hc : c < 2 ^ 32) (t : List Nat) :
    readFileHeader ((MAGIC ++ u32le 1 ++ u32le c ++ u32le 0) ++ t) = some (MAGIC, 1, c, t) := by
  have h16 : (MAGIC ++ u32le 1 ++ u32le c ++ u32le 0).length = 16 := by
    simp [MAGIC, u32le_length]
  have hm : (MAGIC ++ u32le 1 ++ u32le c ++ u32le 0).take 4 = MAGIC := by
    have e : MAGIC ++ u32le 1 ++ u32le c ++ u32le 0 =
        MAGIC ++ (u32le 1 ++ (u32le c ++ u32le 0)) := by
      simp [List.append_assoc]
    rw [e, take_append_len MAGIC _ 4 rfl]
  have hv : leVal (((MAGIC ++ u32le 1 ++ u32le c ++ u32le 0).drop 4).take 4) = 1 := by
    have e : MAGIC ++ u32le 1 ++ u32le c ++ u32le 0 =
        MAGIC ++ (u32le 1 ++ (u32le c ++ u32le 0)) := by
      simp [List.append_assoc]
    rw [e, drop_append_len MAGIC _ 4 rfl, take_append_len (u32le 1) _ 4 rfl,
      leVal_u32le (by omega)]
  have hcv : leVal (((MAGIC ++ u32le 1 ++ u32le c ++ u32le 0).drop 8).take 4) = c := by
    have e : MAGIC ++ u32le 1 ++ u32le c ++ u32le 0 =
        (MAGIC ++ u32le 1) ++ (u32le c ++ u32le 0) := by
      simp [List.append_assoc]
    rw [e, drop_append_len (MAGIC ++ u32le 1) _ 8 rfl,
      take_append_len (u32le c) _ 4 rfl, leVal_u32le hc]
  simp only [readFileHeader,
    readBytes_append 16 (MAGIC ++ u32le 1 ++ u32le c ++ u32le 0) t h16,
    obind_some, hm, hv, hcv]

lemma readFileHeader_long {s : List Nat} (h : 16 ≤ s.length) :
    readFileHeader s =
      some (s.take 4, leVal ((s.drop 4).take 4), leVal ((s.drop 8).take 4), s.drop 16) := by
  have e1 : (s.take 16).take 4 = s.take 4 := by
    simp [List.take_take]
  have e2 : ((s.take 16).drop 4).take 4 = (s.drop 4).take 4 := by
    rw [List.drop_take]
    simp [List.take_take]
  have e3 : ((s.take 16).drop 8).take 4 = (s.drop 8).take 4 := by
    rw [List.drop_take]
    simp [List.take_take]
  simp only [readFileHeader, readBytes_of_le (show 16 ≤ s.length from h), obind_some,
    e1, e2, e3]

/-! ## C1: binary round-trip -/

/-- C1: for every dataset with non-empty names of at most 63 bytes,
constellations of at most 31 bytes, and at least one point per object
(`ValidData` additionally records the representation bounds imposed by the C
types: doubles are 64-bit patterns, counts fit in `int`), encoding to a
sink large enough to take every byte succeeds, and decoding the bytes the
encoder wrote returns a dataset equal to the original: same objects in the
same order, same names, same point counts, every double bit-for-bit and
every constellation byte-for-byte. -/
theorem binary_roundtrip (d : List BinObj) (cap : Nat) (init : Option (List BinObj))
    (hv : ValidData d) (hne : d ≠ []) (hcap : (encFile d).length ≤ cap) :
    de430_save_to_binary d cap = (ERROR_NONE, encFile d) ∧
    de430_load_from_binary (encFile d) init = (ERROR_NONE, some d) := by
  constructor
  · have he : d.isEmpty = false := by
      cases d with
      | nil => exact absurd rfl hne
      | cons a t => rfl
    simp only [de430_save_to_binary, he, Bool.false_eq_true, if_false,
      saveAll_eq, if_pos hcap]
  · exact load_encFile d hv init

/-- A small concrete dataset: one object `"jup"` with one point whose
constellation is `"Leo"`. -/
def demoData : List BinObj :=
  [⟨[106, 117, 112], [⟨1, 2, 3, 4, 5, 6, 7, 8, 9, 10, 11, 12, 13, 14, 15, 16, 17, 18,
    [76, 101, 111]⟩]⟩]

set_option maxRecDepth 20000 in
/-- Witness for C1 at the concrete dataset `demoData`. -/
theorem binary_roundtrip_witness :
    de430_save_to_binary demoData 1000 = (ERROR_NONE, encFile demoData) ∧
    de430_load_from_binary (encFile demoData) none = (ERROR_NONE, some demoData) :=
  binary_roundtrip demoData 1000 none (by decide) (by decide) (by decide)

/-! ## C8: bad magic or version is rejected -/

/-- C8: on any byte stream of at least the 16 header bytes whose first 4
bytes are not `"DE43"` or whose version field is not 1, binary decode
returns `FormatError` (`DE430_ERROR_PARSE_FAILED`), regardless of the
remaining content, and leaves the result out-parameter untouched. -/
theorem binary_rejects_bad_header (s : List Nat) (init : Option (List BinObj))
    (hlen : 16 ≤ s.length)
    (hbad : s.take 4 ≠ MAGIC ∨ leVal ((s.drop 4).take 4) ≠ 1) :
    de430_load_from_binary s init = (ERROR_PARSE_FAILED, init) := by
  by_cases hm : s.take 4 = MAGIC
  · have hv : leVal ((s.drop 4).take 4) ≠ 1 := by
      rcases hbad with hb | hb
      · exact absurd hm hb
      · exact hb
    simp [de430_load_from_binary, readFileHeader_long hlen, hm, hv]
  · simp [de430_load_from_binary, readFileHeader_long hlen, hm]

/-- Witness for C8: sixteen zero bytes are rejected with `FormatError`. -/
theorem binary_rejects_bad_header_witness :
    de430_load_from_binary (List.replicate 16 0) none = (ERROR_PARSE_FAILED, none) :=
  binary_rejects_bad_header (List.replicate 16 0) none (by decide) (Or.inl (by decide))

/-! ## C9: oversized length fields are rejected, capacity-sized ones accepted -/

lemma readObj_oversized_name (nlen pc : Nat) (rest : List Nat)
    (h64 : 64 < nlen) (h32 : nlen < 2 ^ 32) :
    readObj (u32le nlen ++ (u32le pc ++ rest)) = none := by
  have e : u32le nlen ++ (u32le pc ++ rest) = (u32le nlen ++ u32le pc) ++ rest := by
    simp [List.append_assoc]
  have ha : leVal ((u32le nlen ++ u32le pc).take 4) = nlen := by
    rw [take_append_len (u32le nlen) _ 4 rfl, leVal_u32le h32]
  rw [e]
  simp only [readObj, readBytes_append 8 (u32le nlen ++ u32le pc) rest rfl,
    obind_some, ha, if_pos h64, obind_none]

lemma readPoint_oversized_const (p : BinPoint) (clen : Nat)
    (rest : List Nat) (h32 : 32 < clen) (hc : clen < 2 ^ 32) :
    readPoint (enc18 p ++ (u32le clen ++ rest)) = none := by
  have e : enc18 p ++ (u32le clen ++ rest) = (enc18 p ++ u32le clen) ++ rest := by
    simp [List.append_assoc]
  have h148 : (enc18 p ++ u32le clen).length = 148 := by
    simp [enc18, f64le_length, u32le_length]
  have hcl : leVal (((enc18 p ++ u32le clen).drop 144).take 4) = clen := by
    have hp144 : (enc18 p).length = 144 := by
      simp [enc18, f64le_length]
    rw [drop_append_len _ _ 144 hp144]
    have ht : (u32le clen).take 4 = u32le clen := by simp [u32le]
    rw [ht, leVal_u32le hc]
  rw [e]
  simp only [readPoint, readBytes_append 148 (enc18 p ++ u32le clen) rest h148,
    obind_some, hcl, if_pos h32, obind_none]

/-- C9: a declared `name_length` greater than the 64-byte name capacity, or a
declared `constellation_length` greater than the 32-byte constellation
capacity, makes binary decode fail with `FormatError` whatever bytes follow
the oversized length field (in particular decode never attempts to read the
declared bytes: the tail may even be empty); length fields equal to the
capacity (a 63-byte name with terminator, a 31-byte constellation with
terminator) are accepted and decode completes. -/
theorem binary_rejects_oversized_lengths :
    (∀ (nlen pc : Nat) (rest : List Nat) (init : Option (List BinObj)),
      64 < nlen → nlen < 2 ^ 32 →
      de430_load_from_binary
        ((MAGIC ++ u32le 1 ++ u32le 1 ++ u32le 0) ++ ((u32le nlen ++ u32le pc) ++ rest))
        init = (ERROR_PARSE_FAILED, none)) ∧
    (∀ (p : BinPoint) (clen : Nat) (rest : List Nat) (init : Option (List BinObj)),
      32 < clen → clen < 2 ^ 32 →
      de430_load_from_binary
        ((MAGIC ++ u32le 1 ++ u32le 1 ++ u32le 0) ++
          ((u32le 2 ++ u32le 1) ++ (([106] ++ [0]) ++ (enc18 p ++ (u32le clen ++ rest)))))
        init = (ERROR_PARSE_FAILED, none)) ∧
    de430_load_from_binary (encFile capData) none = (ERROR_NONE, some capData) := by
  refine ⟨?_, ?_, ?_⟩
  · intro nlen pc rest init h64 h32
    simp only [de430_load_from_binary,
      readFileHeader_hdr 1 (by omega) ((u32le nlen ++ u32le pc) ++ rest)]
    simp [readObjs, readObj_oversized_name nlen pc rest h64 h32, obind_none]
  · intro p clen rest init h32 hc
    simp only [de430_load_from_binary,
      readFileHeader_hdr 1 (by omega)
        ((u32le 2 ++ u32le 1) ++ (([106] ++ [0]) ++ (enc18 p ++ (u32le clen ++ rest))))]
    have hrd : readObj
        (u32le 2 ++ (u32le 1 ++ (106 :: 0 :: (enc18 p ++ (u32le clen ++ rest))))) =
        none := by
      have e : u32le 2 ++ (u32le 1 ++ (106 :: 0 :: (enc18 p ++ (u32le clen ++ rest)))) =
          (u32le 2 ++ u32le 1) ++ (([106] ++ [0]) ++ (enc18 p ++ (u32le clen ++ rest))) := by
        simp [List.append_assoc]
      rw [e]
      simp only [readObj,
        readBytes_append 8 (u32le 2 ++ u32le 1)
          (([106] ++ [0]) ++ (enc18 p ++ (u32le clen ++ rest))) rfl,
        obind_some]
      have ha : leVal ((u32le 2 ++ u32le 1).take 4) = 2 := by decide
      have hb : leVal (((u32le 2 ++ u32le 1).drop 4).take 4) = 1 := by decide
      simp only [ha, hb]
      simp only [if_neg (show ¬ (64 : Nat) < 2 by omega),
        readBytes_append 2 ([106] ++ [0]) (enc18 p ++ (u32le clen ++ rest)) (by simp),
        obind_some, readPoints,
        readPoint_oversized_const p clen rest h32 hc, obind_none]
    simp [readObjs, hrd, obind_none]
  · exact (load_encFile capData (by decide) none)

/-- An all-zero point used by witnesses. -/
def zeroPoint : BinPoint := ⟨0, 0, 0, 0, 0, 0, 0, 0, 0, 0, 0, 0, 0, 0, 0, 0, 0, 0, []⟩

set_option maxRecDepth 20000 in
/-- Witness for C9: `name_length = 65` and `constellation_length = 33` are
rejected at concrete inputs. -/
theorem binary_rejects_oversized_lengths_witness :
    de430_load_from_binary
      ((MAGIC ++ u32le 1 ++ u32le 1 ++ u32le 0) ++ ((u32le 65 ++ u32le 1) ++ []))
      (some []) = (ERROR_PARSE_FAILED, none) ∧
    de430_load_from_binary
      ((MAGIC ++ u32le 1 ++ u32le 1 ++ u32le 0) ++
        ((u32le 2 ++ u32le 1) ++ (([106] ++ [0]) ++ (enc18 zeroPoint ++ (u32le 33 ++ [])))))
      none = (ERROR_PARSE_FAILED, none) :=
  ⟨binary_rejects_oversized_lengths.1 65 1 [] (some []) (by omega) (by omega),
   binary_rejects_oversized_lengths.2.1 zeroPoint 33 [] none (by omega) (by omega)⟩

/-! ## Lemmas toward C4 and C7 (binary side) -/

/-- The binary stream got past the header checks: a well-formed magic and
version were read. -/
def binHeaderOk (s : List Nat) : Prop :=
  ∃ c s1, readFileHeader s = some (MAGIC, 1, c, s1)

lemma binary_error_untouched_or_null (s : List Nat) (init : Option (List BinObj))
    (hcode : (de430_load_from_binary s init).1 ≠ ERROR_NONE) :
    (de430_load_from_binary s init).2 = init ∨ (de430_load_from_binary s init).2 = none := by
  cases hh : readFileHeader s with
  | none => simp [de430_load_from_binary, hh]
  | some x =>
    obtain ⟨m, v, c, s1⟩ := x
    by_cases hm : m ≠ MAGIC
    · simp [de430_load_from_binary, hh, hm]
    · by_cases hv : v ≠ 1
      · simp [de430_load_from_binary, hh, hm, hv]
      · cases hro : readObjs c s1 with
        | none => simp [de430_load_from_binary, hh, hm, hv, hro]
        | some y =>
          exact absurd (by simp [de430_load_from_binary, hh, hm, hv, hro]) hcode

lemma binary_error_after_header_null (s : List Nat) (init : Option (List BinObj))
    (hok : binHeaderOk s)
    (hcode : (de430_load_from_binary s init).1 ≠ ERROR_NONE) :
    (de430_load_from_binary s init).2 = none := by
  obtain ⟨c, s1, hh⟩ := hok
  cases hro : readObjs c s1 with
  | none => simp [de430_load_from_binary, hh, hro]
  | some y =>
    exact absurd (by simp [de430_load_from_binary, hh, hro]) hcode

lemma binary_short_write (d : List BinObj) (cap : Nat) (hne : d ≠ [])
    (hcap : cap < (encFile d).length) :
    de430_save_to_binary d cap = ( ERROR_FILE_IO, []) := by
  have he : d.isEmpty = false := by
    cases d with
    | nil => exact absurd rfl hne
    | cons a t => rfl
  simp only [de430_save_to_binary, he, Bool.false_eq_true, if_false, saveAll_eq,
    if_neg (show ¬ (encFile d).length ≤ cap by omega)]

/-! ## Text-codec data model (`csv.c`, `json.c`)

The text codecs go through decimal text, so their field values are modelled
as exact rationals and their strings as character lists. -/

/-- `DE430EphemerisPoint` as the text codecs see it. -/
structure QPoint where
  jd : ℚ
  pos0 : ℚ
  pos1 : ℚ
  pos2 : ℚ
  ra : ℚ
  dec : ℚ
  magnitude : ℚ
  phase : ℚ
  angular_size : ℚ
  physical_size : ℚ
  albedo : ℚ
  sun_dist : ℚ
  earth_dist : ℚ
  sun_ang_dist : ℚ
  theta_edo : ℚ
  ecl0 : ℚ
  ecl1 : ℚ
  ecl2 : ℚ
  constellation : List Char
deriving DecidableEq, Repr

/-- `DE430EphemerisData` as handed to the encoders (its `count` is the
length of `points`). -/
structure EphData where
  object_name : List Char
  points : List QPoint
deriving DecidableEq, Repr

/-- `DE430EphemerisData` as produced by `de430_load_from_json`: the stored
`count` field is kept separate so that its relation to the point array is a
theorem, not a definition. -/
structure JObj where
  object_name : List Char
  count : Nat
  points : List QPoint
deriving DecidableEq, Repr

/-! ## JSON codec (`json.c`)

The JSON file is modelled as its parsed tree (the cJSON value). -/

/-- A cJSON tree. -/
inductive JVal where
  | jnull : JVal
  | jbool : Bool → JVal
  | num : ℚ → JVal
  | str : List Char → JVal
  | arr : List JVal → JVal
  | obj : List (String × JVal) → JVal

/-- First binding of a key in a cJSON object's child list.  (All keys used
by this codec are lowercase ASCII, so cJSON's case-insensitive lookup is
modelled as exact comparison.) -/
def lookupKV : List (String × JVal) → String → Option JVal
  | [], _ => none
  | (k', v) :: rest, k => if k' = k then some v else lookupKV rest k

/-- `cJSON_GetObjectItem`; NULL when the value is not an object. -/
def getItem : JVal → String → Option JVal
  | .obj kvs, k => lookupKV kvs k
  | _, _ => none

/-- The numeric value of a member, `none` if absent or not a number
(`cJSON_IsNumber` guard). -/
def getNum (j : JVal) (k : String) : Option ℚ :=
  match getItem j k with
  | some (.num q) => some q
  | _ => none

/-- The string value of a member, `none` if absent or not a string
(`cJSON_IsString` guard). -/
def getStr (j : JVal) (k : String) : Option (List Char) :=
  match getItem j k with
  | some (.str s) => some s
  | _ => none

/-- Element `i` of the array member `k`, defaulting to 0 when the member is
absent or not an array, the index is past the end, or the element is not a
number — exactly the index-by-index copy loops of `json_to_ephemeris_point`. -/
def arrNum (j : JVal) (k : String) (i : Nat) : ℚ :=
  match getItem j k with
  | some (.arr xs) =>
    match xs.get? i with
    | some (.num q) => q
    | _ => 0
  | _ => 0

/-- `json_to_ephemeris_point`: every field individually optional, absent or
wrong-typed leaves default to 0 / the empty string after the initial
`memset`.  In the C code this returns a status, but no input makes it fail;
the model makes that totality explicit. -/
def json_to_ephemeris_point (j : JVal) : QPoint :=
  { jd := (getNum j "jd").getD 0
    pos0 := arrNum j "position" 0
    pos1 := arrNum j "position" 1
    pos2 := arrNum j "position" 2
    ra := arrNum j "ra_dec" 0
    dec := arrNum j "ra_dec" 1
    magnitude := (getNum j "magnitude").getD 0
    phase := (getNum j "phase").getD 0
    angular_size := (getNum j "angular_size").getD 0
    physical_size := (getNum j "physical_size").getD 0
    albedo := (getNum j "albedo").getD 0
    sun_dist := (getNum j "sun_dist").getD 0
    earth_dist := (getNum j "earth_dist").getD 0
    sun_ang_dist := (getNum j "sun_ang_dist").getD 0
    theta_edo := (getNum j "theta_edo").getD 0
    ecl0 := arrNum j "ecliptic" 0
    ecl1 := arrNum j "ecliptic" 1
    ecl2 := arrNum j "ecliptic" 2
    constellation := ((getStr j "constellation").getD []).take 31 }

/-- `json_to_ephemeris_data`: the object name is optional (empty when
absent), but a missing or non-array `points` member fails with
`DE430_ERROR_JSON_PARSE`.  The stored `count` is the length of the `points`
array; the `"count"` member is never consulted. -/
def json_to_ephemeris_data (j : JVal) : Except Int JObj :=
  match getItem j "points" with
  | some (.arr ps) =>
    .ok ⟨((getStr j "object_name").getD []).take 63, ps.length,
         ps.map json_to_ephemeris_point⟩
  | _ => .error ERROR_JSON_PARSE

/-- The per-object loop of `de430_load_from_json`: stops at the first
failing object. -/
def jsonDecodeObjs : List JVal → Except Int (List JObj)
  | [] => .ok []
  | j :: js =>
    match json_to_ephemeris_data j with
    | .error e => .error e
    | .ok d =>
      match jsonDecodeObjs js with
      | .error e => .error e
      | .ok ds => .ok (d :: ds)

/-- The C cast `(int)object_count->valuedouble`: truncation toward zero. -/
def ratTrunc (q : ℚ) : Int := Int.tdiv q.num (q.den : Int)

/-- `de430_load_from_json`, with the file given as its parsed tree and the
caller's `*result` value as `init`.  Mirrors the C control flow: a
missing/non-numeric `object_count` or missing/non-array `objects` (or a size
mismatch against the cast count) fails before the result array is allocated
and leaves `*result` untouched; a failure inside the object loop frees
everything and sets `*result` to NULL. -/
def de430_load_from_json (root : JVal) (init : Option (List JObj)) :
    Int × Option (List JObj) :=
  match getItem root "object_count" with
  | some (.num oc) =>
    match getItem root "objects" with
    | some (.arr os) =>
      if (os.length : Int) ≠ ratTrunc oc then (ERROR_JSON_PARSE, init)
      else
        match jsonDecodeObjs os with
        | .error e => (e, none)
        | .ok objs => (ERROR_NONE, some objs)
    | _ => (ERROR_JSON_PARSE, init)
  | _ => (ERROR_JSON_PARSE, init)

/-- `ephemeris_point_to_json`: members in the order the C code adds them. -/
def ephemeris_point_to_json (p : QPoint) : JVal :=
  .obj [("jd", .num p.jd), ("magnitude", .num p.magnitude), ("phase", .num p.phase),
        ("angular_size", .num p.angular_size), ("physical_size", .num p.physical_size),
        ("albedo", .num p.albedo), ("sun_dist", .num p.sun_dist),
        ("earth_dist", .num p.earth_dist), ("sun_ang_dist", .num p.sun_ang_dist),
        ("theta_edo", .num p.theta_edo), ("constellation", .str p.constellation),
        ("position", .arr [.num p.pos0, .num p.pos1, .num p.pos2]),
        ("ra_dec", .arr [.num p.ra, .num p.dec]),
        ("ecliptic", .arr [.num p.ecl0, .num p.ecl1, .num p.ecl2])]

/-- `ephemeris_data_to_json`: name, the stored count, and the point array. -/
def ephemeris_data_to_json (o : EphData) : JVal :=
  .obj [("object_name", .str o.object_name), ("count", .num (o.points.length : ℚ)),
        ("points", .arr (o.points.map ephemeris_point_to_json))]

/-- `de430_save_to_json`, with the destination as a sink of `cap` bytes.
The tree stands for the text `cJSON_Print` produces.  The single `fprintf`
writing it is not checked in `json.c`, so the return code is independent of
the sink's capacity. -/
def de430_save_to_json (d : List EphData) (_cap : Nat) : Int × JVal :=
  if d.isEmpty then (ERROR_INVALID_CONFIG, .jnull)
  else
    (ERROR_NONE,
     .obj [("object_count", .num (d.length : ℚ)),
           ("objects", .arr (d.map ephemeris_data_to_json))])

/-- `j` with every `"count"` binding removed (for stating that the decoder
never reads it). -/
def eraseCount : JVal → JVal
  | .obj kvs => .obj (kvs.filter (fun kv => kv.1 != "count"))
  | j => j

/-! ## JSON lemmas and theorems (C3, C10, C4) -/

lemma ratTrunc_natCast (n : Nat) : ratTrunc (n : ℚ) = (n : Int) := by
  simp [ratTrunc]

lemma jsonDecodeObjs_ok (os : List JVal)
    (h : ∀ o ∈ os, ∃ ps, getItem o "points" = some (JVal.arr ps)) :
    ∃ ds, jsonDecodeObjs os = .ok ds := by
  induction os with
  | nil => exact ⟨[], rfl⟩
  | cons j js ih =>
    obtain ⟨ps, hp⟩ := h j (by simp)
    obtain ⟨ds, hds⟩ := ih (fun o ho => h o (by simp [ho]))
    refine ⟨⟨((getStr j "object_name").getD []).take 63, ps.length,
      ps.map json_to_ephemeris_point⟩ :: ds, ?_⟩
    simp [jsonDecodeObjs, json_to_ephemeris_data, hp, hds]

lemma json_to_ephemeris_data_count (j : JVal) (d : JObj)
    (h : json_to_ephemeris_data j = .ok d) :
    d.count = d.points.length := by
  revert h
  simp only [json_to_ephemeris_data]
  cases hp : getItem j "points" with
  | none => simp
  | some v =>
    cases v with
    | arr ps =>
      intro h
      cases h
      simp
    | jnull => simp
    | jbool b => simp
    | num q => simp
    | str s => simp
    | obj kvs => simp

lemma jsonDecodeObjs_count : ∀ (os : List JVal) (ds : List JObj),
    jsonDecodeObjs os = .ok ds → ∀ o ∈ ds, o.count = o.points.length := by
  intro os
  induction os with
  | nil =>
    intro ds h o ho
    simp only [jsonDecodeObjs] at h
    cases h
    simp at ho
  | cons j js ih =>
    intro ds h o ho
    revert h
    simp only [jsonDecodeObjs]
    cases hd : json_to_ephemeris_data j with
    | error e => simp
    | ok d =>
      cases hr : jsonDecodeObjs js with
      | error e => simp
      | ok ds2 =>
        intro h
        cases h
        rcases List.mem_cons.mp ho with rfl | ho2
        · exact json_to_ephemeris_data_count j o hd
        · exact ih ds2 hr o ho2

lemma lookupKV_filter_count (kvs : List (String × JVal)) (k : String) (hk : k ≠ "count") :
    lookupKV (kvs.filter (fun kv => kv.1 != "count")) k = lookupKV kvs k := by
  induction kvs with
  | nil => rfl
  | cons kv t ih =>
    obtain ⟨k1, v⟩ := kv
    by_cases h : k1 = "count"
    · subst h
      have hne : ¬ ("count" = k) := fun e => hk e.symm
      simp only [List.filter_cons, bne_self_eq_false, Bool.false_eq_true, if_false,
        lookupKV, hne]
      exact ih
    · have ht : (k1 != "count") = true := by simp [h]
      simp only [List.filter_cons, ht, if_true, lookupKV]
      by_cases he : k1 = k
      · simp [he]
      · simp only [he, if_false]
        exact ih

lemma getItem_eraseCount (j : JVal) (k : String) (hk : k ≠ "count") :
    getItem (eraseCount j) k = getItem j k := by
  cases j with
  | obj kvs => exact lookupKV_filter_count kvs k hk
  | jnull => rfl
  | jbool b => rfl
  | num q => rfl
  | str s => rfl
  | arr xs => rfl

/-- C10: `de430_load_from_json` derives each object's point count from the
length of its `points` array alone: decoding an object is invariant under
removing (hence under changing) its `"count"` member, any object with a
`points` array decodes successfully with `count` equal to the array length,
and every object a successful dataset decode returns has `count` equal to
its number of points. -/
theorem json_count_field_ignored :
    (∀ j : JVal, json_to_ephemeris_data (eraseCount j) = json_to_ephemeris_data j) ∧
    (∀ (j : JVal) (ps : List JVal), getItem j "points" = some (JVal.arr ps) →
      ∃ d, json_to_ephemeris_data j = .ok d ∧ d.count = ps.length ∧
        d.points.length = ps.length) ∧
    (∀ (root : JVal) (init : Option (List JObj)) (objs : List JObj),
      de430_load_from_json root init = (ERROR_NONE, some objs) →
      ∀ o ∈ objs, o.count = o.points.length) := by
  refine ⟨?_, ?_, ?_⟩
  · intro j
    simp only [json_to_ephemeris_data, getStr,
      getItem_eraseCount j "points" (by decide),
      getItem_eraseCount j "object_name" (by decide)]
  · intro j ps hp
    refine ⟨⟨((getStr j "object_name").getD []).take 63, ps.length,
      ps.map json_to_ephemeris_point⟩, ?_, rfl, by simp⟩
    simp [json_to_ephemeris_data, hp]
  · intro root init objs hload o ho
    revert hload
    simp only [de430_load_from_json]
    cases h1 : getItem root "object_count" with
    | none => intro h; simp [ERROR_JSON_PARSE, ERROR_NONE] at h
    | some v1 =>
      cases v1 with
      | num oc =>
        cases h2 : getItem root "objects" with
        | none => intro h; simp [ERROR_JSON_PARSE, ERROR_NONE] at h
        | some v2 =>
          cases v2 with
          | arr os =>
            by_cases hc : (os.length : Int) ≠ ratTrunc oc
            · simp only [if_pos hc]
              intro h
              simp [ERROR_JSON_PARSE, ERROR_NONE] at h
            · simp only [if_neg hc]
              cases hro : jsonDecodeObjs os with
              | error e => intro h; exact absurd (congrArg Prod.snd h) (by simp)
              | ok ds =>
                intro h
                have hds : ds = objs := by
                  have := congrArg Prod.snd h
                  simpa using this
                subst hds
                exact jsonDecodeObjs_count os ds hro o ho
          | jnull => intro h; simp [ERROR_JSON_PARSE, ERROR_NONE] at h
          | jbool b => intro h; simp [ERROR_JSON_PARSE, ERROR_NONE] at h
          | num q => intro h; simp [ERROR_JSON_PARSE, ERROR_NONE] at h
          | str s => intro h; simp [ERROR_JSON_PARSE, ERROR_NONE] at h
          | obj kvs => intro h; simp [ERROR_JSON_PARSE, ERROR_NONE] at h
      | jnull => intro h; simp [ERROR_JSON_PARSE, ERROR_NONE] at h
      | jbool b => intro h; simp [ERROR_JSON_PARSE, ERROR_NONE] at h
      | str s => intro h; simp [ERROR_JSON_PARSE, ERROR_NONE] at h
      | arr xs => intro h; simp [ERROR_JSON_PARSE, ERROR_NONE] at h
      | obj kvs => intro h; simp [ERROR_JSON_PARSE, ERROR_NONE] at h

/-- A point object carrying a `"count"`-free record used by witnesses. -/
def demoPointJson : JVal := .obj [("jd", .num 1)]

/-- An object whose `"count"` member (99) disagrees with its one-point
`points` array. -/
def demoObjJson : JVal :=
  .obj [("object_name", .str ['x']), ("count", .num 99),
        ("points", .arr [demoPointJson])]

/-- Witness for C10: the lying `"count"` of `demoObjJson` is ignored. -/
theorem json_count_field_ignored_witness :
    json_to_ephemeris_data (eraseCount demoObjJson) = json_to_ephemeris_data demoObjJson ∧
    ∃ d, json_to_ephemeris_data demoObjJson = .ok d ∧ d.count = 1 ∧
      d.points.length = 1 :=
  ⟨json_count_field_ignored.1 demoObjJson,
   json_count_field_ignored.2.1 demoObjJson [demoPointJson] rfl⟩

/-- C3: given sound structure — a numeric `object_count`, an `objects` array
of that length, and a `points` array in every object — JSON decode succeeds,
and no missing or malformed leaf value can make a point fail: an absent or
non-numeric scalar member (e.g. `"phase"`) decodes as 0.0, an absent or
short `position`/`ra_dec`/`ecliptic` array leaves the unfilled slots at 0.0,
and an absent or non-string `constellation` decodes as the empty string. -/
theorem json_tolerant_decode :
    (∀ (root : JVal) (init : Option (List JObj)) (oc : ℚ) (os : List JVal),
      getItem root "object_count" = some (JVal.num oc) →
      getItem root "objects" = some (JVal.arr os) →
      (os.length : ℚ) = oc →
      (∀ o ∈ os, ∃ ps, getItem o "points" = some (JVal.arr ps)) →
      ∃ objs, de430_load_from_json root init = (ERROR_NONE, some objs)) ∧
    (∀ j, getNum j "jd" = none → (json_to_ephemeris_point j).jd = 0) ∧
    (∀ j, getNum j "magnitude" = none → (json_to_ephemeris_point j).magnitude = 0) ∧
    (∀ j, getNum j "phase" = none → (json_to_ephemeris_point j).phase = 0) ∧
    (∀ j, getNum j "angular_size" = none → (json_to_ephemeris_point j).angular_size = 0) ∧
    (∀ j, getNum j "physical_size" = none → (json_to_ephemeris_point j).physical_size = 0) ∧
    (∀ j, getNum j "albedo" = none → (json_to_ephemeris_point j).albedo = 0) ∧
    (∀ j, getNum j "sun_dist" = none → (json_to_ephemeris_point j).sun_dist = 0) ∧
    (∀ j, getNum j "earth_dist" = none → (json_to_ephemeris_point j).earth_dist = 0) ∧
    (∀ j, getNum j "sun_ang_dist" = none → (json_to_ephemeris_point j).sun_ang_dist = 0) ∧
    (∀ j, getNum j "theta_edo" = none → (json_to_ephemeris_point j).theta_edo = 0) ∧
    (∀ j, getItem j "position" = none → (json_to_ephemeris_point j).pos0 = 0 ∧ (json_to_ephemeris_point j).pos1 = 0 ∧ (json_to_ephemeris_point j).pos2 = 0) ∧
    (∀ j xs, getItem j "position" = some (JVal.arr xs) →
      (xs.length ≤ 0 → (json_to_ephemeris_point j).pos0 = 0) ∧
      (xs.length ≤ 1 → (json_to_ephemeris_point j).pos1 = 0) ∧
      (xs.length ≤ 2 → (json_to_ephemeris_point j).pos2 = 0)) ∧
    (∀ j, getItem j "ra_dec" = none → (json_to_ephemeris_point j).ra = 0 ∧ (json_to_ephemeris_point j).dec = 0) ∧
    (∀ j xs, getItem j "ra_dec" = some (JVal.arr xs) →
      (xs.length ≤ 0 → (json_to_ephemeris_point j).ra = 0) ∧
      (xs.length ≤ 1 → (json_to_ephemeris_point j).dec = 0)) ∧
    (∀ j, getItem j "ecliptic" = none → (json_to_ephemeris_point j).ecl0 = 0 ∧ (json_to_ephemeris_point j).ecl1 = 0 ∧ (json_to_ephemeris_point j).ecl2 = 0) ∧
    (∀ j xs, getItem j "ecliptic" = some (JVal.arr xs) →
      (xs.length ≤ 0 → (json_to_ephemeris_point j).ecl0 = 0) ∧
      (xs.length ≤ 1 → (json_to_ephemeris_point j).ecl1 = 0) ∧
      (xs.length ≤ 2 → (json_to_ephemeris_point j).ecl2 = 0)) ∧
    (∀ j, getStr j "constellation" = none →
      (json_to_ephemeris_point j).constellation = []) := by
  refine ⟨?_, ?_, ?_, ?_, ?_, ?_, ?_, ?_, ?_, ?_, ?_, ?_, ?_, ?_, ?_, ?_, ?_, ?_⟩
  · intro root init oc os h1 h2 hlen hpts
    have hoc : ratTrunc oc = (os.length : Int) := by
      rw [← hlen, ratTrunc_natCast]
    obtain ⟨ds, hds⟩ := jsonDecodeObjs_ok os hpts
    exact ⟨ds, by simp [de430_load_from_json, h1, h2, hoc, hds]⟩
  · intro j h
    simp [json_to_ephemeris_point, h]
  · intro j h
    simp [json_to_ephemeris_point, h]
  · intro j h
    simp [json_to_ephemeris_point, h]
  · intro j h
    simp [json_to_ephemeris_point, h]
  · intro j h
    simp [json_to_ephemeris_point, h]
  · intro j h
    simp [json_to_ephemeris_point, h]
  · intro j h
    simp [json_to_ephemeris_point, h]
  · intro j h
    simp [json_to_ephemeris_point, h]
  · intro j h
    simp [json_to_ephemeris_point, h]
  · intro j h
    simp [json_to_ephemeris_point, h]
  · intro j h
    refine ⟨?_, ?_, ?_⟩ <;> simp [json_to_ephemeris_point, arrNum, h]
  · intro j xs h
    refine ⟨?_, ?_, ?_⟩
    · intro hl
      have hg : xs[0]? = none := List.getElem?_eq_none (by omega)
      simp [json_to_ephemeris_point, arrNum, h, hg]
    · intro hl
      have hg : xs[1]? = none := List.getElem?_eq_none (by omega)
      simp [json_to_ephemeris_point, arrNum, h, hg]
    · intro hl
      have hg : xs[2]? = none := List.getElem?_eq_none (by omega)
      simp [json_to_ephemeris_point, arrNum, h, hg]
  · intro j h
    refine ⟨?_, ?_⟩ <;> simp [json_to_ephemeris_point, arrNum, h]
  · intro j xs h
    refine ⟨?_, ?_⟩
    · intro hl
      have hg : xs[0]? = none := List.getElem?_eq_none (by omega)
      simp [json_to_ephemeris_point, arrNum, h, hg]
    · intro hl
      have hg : xs[1]? = none := List.getElem?_eq_none (by omega)
      simp [json_to_ephemeris_point, arrNum, h, hg]
  · intro j h
    refine ⟨?_, ?_, ?_⟩ <;> simp [json_to_ephemeris_point, arrNum, h]
  · intro j xs h
    refine ⟨?_, ?_, ?_⟩
    · intro hl
      have hg : xs[0]? = none := List.getElem?_eq_none (by omega)
      simp [json_to_ephemeris_point, arrNum, h, hg]
    · intro hl
      have hg : xs[1]? = none := List.getElem?_eq_none (by omega)
      simp [json_to_ephemeris_point, arrNum, h, hg]
    · intro hl
      have hg : xs[2]? = none := List.getElem?_eq_none (by omega)
      simp [json_to_ephemeris_point, arrNum, h, hg]
  · intro j h
    simp [json_to_ephemeris_point, h]

/-- A structurally sound root for witnesses: one object, one point. -/
def demoRootJson : JVal :=
  .obj [("object_count", .num 1), ("objects", .arr [demoObjJson])]

/-- Witness for C3: `demoRootJson` decodes, and the point without a
`"phase"` member decodes with `phase = 0`. -/
theorem json_tolerant_decode_witness :
    (∃ objs, de430_load_from_json demoRootJson none = (ERROR_NONE, some objs)) ∧
    (json_to_ephemeris_point demoPointJson).phase = 0 :=
  ⟨json_tolerant_decode.1 demoRootJson none 1 [demoObjJson] rfl rfl (by norm_num)
    (by
      intro o ho
      rw [List.mem_singleton] at ho
      subst ho
      exact ⟨[demoPointJson], rfl⟩),
   json_tolerant_decode.2.2.2.1 demoPointJson rfl⟩

/-! ## C4: no partially built dataset -/

/-- The JSON tree got past the structural checks of `de430_load_from_json`:
numeric `object_count`, an `objects` array, the size matches the cast
count. -/
def jsonStructOk (root : JVal) : Prop :=
  ∃ oc os, getItem root "object_count" = some (JVal.num oc) ∧
    getItem root "objects" = some (JVal.arr os) ∧ (os.length : Int) = ratTrunc oc

lemma json_error_untouched_or_null (root : JVal) (init : Option (List JObj))
    (hcode : (de430_load_from_json root init).1 ≠ ERROR_NONE) :
    (de430_load_from_json root init).2 = init ∨
      (de430_load_from_json root init).2 = none := by
  cases h1 : getItem root "object_count" with
  | none =>
    have hv : de430_load_from_json root init = (ERROR_JSON_PARSE, init) := by
      simp only [de430_load_from_json, h1]
    rw [hv]
    exact Or.inl rfl
  | some v1 =>
    cases v1 with
    | num oc =>
      cases h2 : getItem root "objects" with
      | none =>
        have hv : de430_load_from_json root init = (ERROR_JSON_PARSE, init) := by
          simp only [de430_load_from_json, h1, h2]
        rw [hv]
        exact Or.inl rfl
      | some v2 =>
        cases v2 with
        | arr os =>
          by_cases hc : (os.length : Int) ≠ ratTrunc oc
          · have hv : de430_load_from_json root init = (ERROR_JSON_PARSE, init) := by
              simp only [de430_load_from_json, h1, h2, if_pos hc]
            rw [hv]
            exact Or.inl rfl
          · cases hro : jsonDecodeObjs os with
            | error e =>
              have hv : de430_load_from_json root init = (e, none) := by
                simp only [de430_load_from_json, h1, h2, if_neg hc, hro]
              rw [hv]
              exact Or.inr rfl
            | ok ds =>
              have hv : de430_load_from_json root init = (ERROR_NONE, some ds) := by
                simp only [de430_load_from_json, h1, h2, if_neg hc, hro]
              exact absurd (congrArg Prod.fst hv) hcode
        | jnull =>
          have hv : de430_load_from_json root init = (ERROR_JSON_PARSE, init) := by
            simp only [de430_load_from_json, h1, h2]
          rw [hv]
          exact Or.inl rfl
        | jbool b =>
          have hv : de430_load_from_json root init = (ERROR_JSON_PARSE, init) := by
            simp only [de430_load_from_json, h1, h2]
          rw [hv]
          exact Or.inl rfl
        | num q =>
          have hv : de430_load_from_json root init = (ERROR_JSON_PARSE, init) := by
            simp only [de430_load_from_json, h1, h2]
          rw [hv]
          exact Or.inl rfl
        | str s =>
          have hv : de430_load_from_json root init = (ERROR_JSON_PARSE, init) := by
            simp only [de430_load_from_json, h1, h2]
          rw [hv]
          exact Or.inl rfl
        | obj kvs =>
          have hv : de430_load_from_json root init = (ERROR_JSON_PARSE, init) := by
            simp only [de430_load_from_json, h1, h2]
          rw [hv]
          exact Or.inl rfl
    | jnull =>
      have hv : de430_load_from_json root init = (ERROR_JSON_PARSE, init) := by
        simp only [de430_load_from_json, h1]
      rw [hv]
      exact Or.inl rfl
    | jbool b =>
      have hv : de430_load_from_json root init = (ERROR_JSON_PARSE, init) := by
        simp only [de430_load_from_json, h1]
      rw [hv]
      exact Or.inl rfl
    | str s =>
      have hv : de430_load_from_json root init = (ERROR_JSON_PARSE, init) := by
        simp only [de430_load_from_json, h1]
      rw [hv]
      exact Or.inl rfl
    | arr xs =>
      have hv : de430_load_from_json root init = (ERROR_JSON_PARSE, init) := by
        simp only [de430_load_from_json, h1]
      rw [hv]
      exact Or.inl rfl
    | obj kvs =>
      have hv : de430_load_from_json root init = (ERROR_JSON_PARSE, init) := by
        simp only [de430_load_from_json, h1]
      rw [hv]
      exact Or.inl rfl

lemma json_error_after_struct_null (root : JVal) (init : Option (List JObj))
    (hok : jsonStructOk root)
    (hcode : (de430_load_from_json root init).1 ≠ ERROR_NONE) :
    (de430_load_from_json root init).2 = none := by
  obtain ⟨oc, os, h1, h2, hc⟩ := hok
  have hcn : ¬ (os.length : Int) ≠ ratTrunc oc := by simp [hc]
  cases hro : jsonDecodeObjs os with
  | error e =>
    have hv : de430_load_from_json root init = (e, none) := by
      simp only [de430_load_from_json, h1, h2, if_neg hcn, hro]
    rw [hv]
  | ok ds =>
    have hv : de430_load_from_json root init = (ERROR_NONE, some ds) := by
      simp only [de430_load_from_json, h1, h2, if_neg hcn, hro]
    exact absurd (congrArg Prod.fst hv) hcode

/-- C4: when binary or JSON decode returns an error, the caller never
observes a partially built dataset: the result out-parameter is either left
exactly as the caller passed it (failures before the result array is
allocated: unreadable or invalid header / root structure) or set to NULL;
and once the header / root structure checks have passed — which covers every
input on which objects were decoded before the failure — an error always
leaves the out-parameter NULL, the objects decoded so far all discarded. -/
theorem no_partial_dataset :
    (∀ (s : List Nat) (init : Option (List BinObj)),
      (de430_load_from_binary s init).1 ≠ ERROR_NONE →
      (de430_load_from_binary s init).2 = init ∨
        (de430_load_from_binary s init).2 = none) ∧
    (∀ (s : List Nat) (init : Option (List BinObj)), binHeaderOk s →
      (de430_load_from_binary s init).1 ≠ ERROR_NONE →
      (de430_load_from_binary s init).2 = none) ∧
    (∀ (root : JVal) (init : Option (List JObj)),
      (de430_load_from_json root init).1 ≠ ERROR_NONE →
      (de430_load_from_json root init).2 = init ∨
        (de430_load_from_json root init).2 = none) ∧
    (∀ (root : JVal) (init : Option (List JObj)), jsonStructOk root →
      (de430_load_from_json root init).1 ≠ ERROR_NONE →
      (de430_load_from_json root init).2 = none) :=
  ⟨binary_error_untouched_or_null, binary_error_after_header_null,
   json_error_untouched_or_null, json_error_after_struct_null⟩

/-- A binary stream with a valid header declaring one object and nothing
after it. -/
def truncStream : List Nat := MAGIC ++ u32le 1 ++ u32le 1 ++ u32le 0

/-- A structurally sound root whose single object has no `points` array. -/
def badObjRoot : JVal :=
  .obj [("object_count", .num 1), ("objects", .arr [.obj []])]

set_option maxRecDepth 20000 in
/-- Witness for C4: mid-stream failures NULL the out-parameter even when the
caller passed a non-NULL value in. -/
theorem no_partial_dataset_witness :
    (de430_load_from_binary truncStream (some [])).2 = none ∧
    (de430_load_from_json badObjRoot (some [])).2 = none :=
  ⟨no_partial_dataset.2.1 truncStream (some []) ⟨1, [], by decide⟩ (by decide),
   no_partial_dataset.2.2.2 badObjRoot (some []) ⟨1, [.obj []], rfl, rfl, by decide⟩
     (by decide)⟩

/-! ## CSV codec (`csv.c`)

The CSV file is modelled as the list of its lines, each without the trailing
newline (`fgets` lines are newline-terminated; the model strips the
terminator, so the C empty-line check `line[0] == '\n' || line[0] == 0`
becomes emptiness). -/

/-- `isspace` for the characters `strtod` skips. -/
def isSpaceCh (c : Char) : Bool :=
  c == ' ' || c == '\t' || c == '\n' || c == '\r' || c == '\x0B' || c == '\x0C'

/-- Value of a decimal digit string (most significant first). -/
def digitsVal (ds : List Char) : Nat :=
  ds.foldl (fun a c => 10 * a + (c.toNat - 48)) 0

/-- The decimal subset of `atof`/`strtod`: optional leading whitespace, an
optional sign, digits with an optional fraction, and an optional exponent.
`none` when no conversion could be performed (then `atof` yields 0.0, which
is how malformed numeric text degrades).  The value is the exact rational,
assembled with integer arithmetic and `mkRat`; IEEE-754 rounding, hex floats
and inf/nan are idealized away. -/
def atofNum (s : List Char) : Option ℚ :=
  let s1 := s.dropWhile isSpaceCh
  let sgn : Bool × List Char :=
    match s1 with
    | '-' :: t => (true, t)
    | '+' :: t => (false, t)
    | _ => (false, s1)
  let ip := sgn.2.takeWhile Char.isDigit
  let s3 := sgn.2.dropWhile Char.isDigit
  let fp : List Char × List Char :=
    match s3 with
    | '.' :: t => (t.takeWhile Char.isDigit, t.dropWhile Char.isDigit)
    | _ => ([], s3)
  if ip.isEmpty && fp.1.isEmpty then none
  else
    let mNum : Nat := digitsVal ip * 10 ^ fp.1.length + digitsVal fp.1
    let num : Int := if sgn.1 then -(mNum : Int) else (mNum : Int)
    let den : Nat := 10 ^ fp.1.length
    let ex : Int :=
      match fp.2 with
      | c :: t =>
        if c == 'e' || c == 'E' then
          match t with
          | '-' :: u =>
            if (u.takeWhile Char.isDigit).isEmpty then 0
            else -(digitsVal (u.takeWhile Char.isDigit) : Int)
          | '+' :: u =>
            if (u.takeWhile Char.isDigit).isEmpty then 0
            else (digitsVal (u.takeWhile Char.isDigit) : Int)
          | u =>
            if (u.takeWhile Char.isDigit).isEmpty then 0
            else (digitsVal (u.takeWhile Char.isDigit) : Int)
        else 0
      | [] => 0
    some (match ex with
      | .ofNat e => mkRat (num * (10 : Int) ^ e) den
      | .negSucc e => mkRat num (den * 10 ^ (e + 1)))

/-- `atof`: 0.0 when no conversion is possible. -/
def atof (s : List Char) : ℚ := (atofNum s).getD 0

/-- One `strtok_r(NULL, ",", &saveptr)` step: skip leading delimiters, fail
on end of string, otherwise the token up to the next delimiter and the
remainder after it.  Empty fields produce no token: consecutive delimiters
are collapsed, just as in the C library. -/
def tokC (s : List Char) : Option (List Char × List Char) :=
  let s1 := s.dropWhile (· == ',')
  if s1.isEmpty then none
  else some (s1.takeWhile (· != ','), (s1.dropWhile (· != ',')).drop 1)

/-- The final `strtok_r(NULL, "\n", &saveptr)` call for the constellation
column. -/
def tokNl (s : List Char) : Option (List Char) :=
  let s1 := s.dropWhile (· == '\n')
  if s1.isEmpty then none
  else some (s1.takeWhile (· != '\n'))

/-- One numeric field of the fill pass: `token = strtok_r(...); if (token)
field = atof(token);` — an absent token leaves the `memset` zero. -/
def csvField (s : List Char) : ℚ × List Char :=
  match tokC s with
  | some (t, r) => (atof t, r)
  | none => (0, [])

/-- The constellation column: the `"\n"`-delimited token (or the zeroed
buffer when the row is exhausted), stored through a 31-byte `strncpy`. -/
def cstField (s : List Char) : List Char :=
  match tokNl s with
  | some t => t.take 31
  | none => []

/-- The 19 positional fields after the object name, in the order
`de430_load_from_csv` parses them; the last column is cut by newline, not
comma, and is stored through a 31-byte `strncpy`. -/
def csvParsePoint (s0 : List Char) : QPoint :=
  let r1 := csvField s0
  let r2 := csvField r1.2
  let r3 := csvField r2.2
  let r4 := csvField r3.2
  let r5 := csvField r4.2
  let r6 := csvField r5.2
  let r7 := csvField r6.2
  let r8 := csvField r7.2
  let r9 := csvField r8.2
  let r10 := csvField r9.2
  let r11 := csvField r10.2
  let r12 := csvField r11.2
  let r13 := csvField r12.2
  let r14 := csvField r13.2
  let r15 := csvField r14.2
  let r16 := csvField r15.2
  let r17 := csvField r16.2
  let r18 := csvField r17.2
  let cst : List Char := cstField r18.2
  ⟨r1.1, r2.1, r3.1, r4.1, r5.1, r6.1, r7.1, r8.1, r9.1, r10.1, r11.1, r12.1,
   r13.1, r14.1, r15.1, r16.1, r17.1, r18.1, cst⟩

/-- The discovery pass's name extraction: skip empty lines and lines with no
comma, otherwise up to 63 bytes of the first column (`strncpy` into the
zeroed 64-byte buffer). -/
def lineName1 (l : List Char) : Option (List Char) :=
  if l = [] then none
  else if ',' ∈ l then some ((l.takeWhile (· != ',')).take 63)
  else none

/-- Tally one occurrence of a name: bump the first matching entry or append
a fresh one (the discovery pass's linear scan + realloc). -/
def tally : List (List Char × Nat) → List Char → List (List Char × Nat)
  | [], n => [(n, 1)]
  | (m, c) :: rest, n =>
    if m = n then (m, c + 1) :: rest else (m, c) :: tally rest n

/-- The discovery pass over the data rows. -/
def discover : List (List Char) → List (List Char × Nat) → List (List Char × Nat)
  | [], acc => acc
  | l :: ls, acc =>
    match lineName1 l with
    | some n => discover ls (tally acc n)
    | none => discover ls acc

/-- Append a point to the entry of `n`; rows whose name was not discovered
are dropped (the `obj_idx == -1` defensive skip). -/
def appendPt : List (List Char × List QPoint) → List Char → QPoint →
    List (List Char × List QPoint)
  | [], _, _ => []
  | (m, ps) :: rest, n, p =>
    if m = n then (m, ps ++ [p]) :: rest else (m, ps) :: appendPt rest n p

/-- One row of the fill pass: skip empty lines; `strtok` the name (up to 63
bytes), look it up, and append the parsed point into the next slot. -/
def fillLine (st : List (List Char × List QPoint)) (l : List Char) :
    List (List Char × List QPoint) :=
  if l = [] then st
  else
    match tokC l with
    | none => st
    | some (t, rest) => appendPt st (t.take 63) (csvParsePoint rest)

/-- Points filled so far for a name (first matching entry). -/
def lookupFill : List (List Char × List QPoint) → List Char → List QPoint
  | [], _ => []
  | (m, ps) :: rest, n => if m = n then ps else lookupFill rest n

/-- `DE430EphemerisData` as produced by `de430_load_from_csv`.  A slot the
fill pass never wrote holds uninitialized memory in C; the model records it
as `none`. -/
structure CsvObj where
  object_name : List Char
  count : Nat
  points : List (Option QPoint)
deriving DecidableEq, Repr

/-- `de430_load_from_csv`, with the file as its line list and the caller's
`*result` value as `init`.  An empty file (the header `fgets` fails) returns
`DE430_ERROR_PARSE_FAILED` with `*result` untouched.  Otherwise: discovery
pass, allocation (`count` slots per discovered name), rewind and fill pass;
in the no-OOM model every such file decodes with code 0. -/
def de430_load_from_csv (lines : List (List Char)) (init : Option (List CsvObj)) :
    Int × Option (List CsvObj) :=
  match lines with
  | [] => (ERROR_PARSE_FAILED, init)
  | _hdr :: rows =>
    let tal := discover rows []
    let st0 := tal.map (fun nc => (nc.1, ([] : List QPoint)))
    let stF := rows.foldl fillLine st0
    (ERROR_NONE, some (tal.map (fun nc =>
      ⟨nc.1, nc.2,
       (lookupFill stF nc.1).map some ++
         List.replicate (nc.2 - (lookupFill stF nc.1).length) none⟩)))

/-! ## CSV encoder (`de430_save_to_csv`) -/

/-- `strncpy` into a fixed buffer followed by the comma-to-space loop. -/
def sanitize (n : Nat) (s : List Char) : List Char :=
  (s.take n).map (fun c => if c == ',' then ' ' else c)

/-- `%.15f`: sign, integer digits, and exactly 15 fractional digits (round
to nearest, idealized over exact rationals). -/
def fmtF15 (q : ℚ) : List Char :=
  let sgn : List Char := if q < 0 then ['-'] else []
  let n : Nat := (round (|q| * (10 : ℚ) ^ 15)).toNat
  let frac := Nat.toDigits 10 (n % 10 ^ 15)
  sgn ++ Nat.toDigits 10 (n / 10 ^ 15) ++
    '.' :: (List.replicate (15 - frac.length) '0' ++ frac)

/-- The header line written by `de430_save_to_csv`. -/
def csvHeaderLine : List Char :=
  ("object_name,jd,pos_x,pos_y,pos_z,ra,dec,magnitude,phase,angular_size," ++
   "physical_size,albedo,sun_dist,earth_dist,sun_ang_dist,theta_edo," ++
   "ecliptic_lng,ecliptic_dist,ecliptic_lat,constellation\n").toList

/-- One data row: sanitized name, 18 numeric columns, sanitized
constellation. -/
def pointRow (name : List Char) (p : QPoint) : List Char :=
  sanitize 64 name ++ ',' :: fmtF15 p.jd ++ ',' :: fmtF15 p.pos0 ++
  ',' :: fmtF15 p.pos1 ++ ',' :: fmtF15 p.pos2 ++ ',' :: fmtF15 p.ra ++
  ',' :: fmtF15 p.dec ++ ',' :: fmtF15 p.magnitude ++ ',' :: fmtF15 p.phase ++
  ',' :: fmtF15 p.angular_size ++ ',' :: fmtF15 p.physical_size ++
  ',' :: fmtF15 p.albedo ++ ',' :: fmtF15 p.sun_dist ++ ',' :: fmtF15 p.earth_dist ++
  ',' :: fmtF15 p.sun_ang_dist ++ ',' :: fmtF15 p.theta_edo ++
  ',' :: fmtF15 p.ecl0 ++ ',' :: fmtF15 p.ecl1 ++ ',' :: fmtF15 p.ecl2 ++
  ',' :: sanitize 32 p.constellation ++ ['\n']

/-- The complete text `de430_save_to_csv` formats. -/
def csvText (d : List EphData) : List Char :=
  csvHeaderLine ++ (d.map (fun o => (o.points.map (pointRow o.object_name)).flatten)).flatten

/-- `de430_save_to_csv`, with the destination as a sink of `cap` bytes that
keeps the prefix it can take.  None of the `fprintf` calls in `csv.c` is
checked, so the return code is independent of how much the sink accepted. -/
def de430_save_to_csv (d : List EphData) (cap : Nat) : Int × List Char :=
  if d.isEmpty then (ERROR_INVALID_CONFIG, [])
  else (ERROR_NONE, (csvText d).take cap)

/-! ## The grouping the spec describes (for C2) -/

/-- A data row's object name as both passes see it: the first column,
truncated to 63 bytes. -/
def rowName (l : List Char) : List Char := (l.takeWhile (· != ',')).take 63

/-- What follows a row's first comma. -/
def rowRest (l : List Char) : List Char := (l.dropWhile (· != ',')).drop 1

/-- Append a name if it has not been seen yet. -/
def seenInsert (acc : List (List Char)) (n : List Char) : List (List Char) :=
  if n ∈ acc then acc else acc ++ [n]

/-- The distinct row names in first-seen order. -/
def firstSeenNames (rows : List (List Char)) : List (List Char) :=
  rows.foldl (fun acc l => seenInsert acc (rowName l)) []

/-- Stated from the spec's CSV two-pass consistency property, for comparison
with the decoder: one series per distinct object name in first-seen order,
each containing exactly the points of the rows bearing that name, in
original row order. -/
def csvGroupSpec (rows : List (List Char)) : List CsvObj :=
  (firstSeenNames rows).map (fun n =>
    let mine := rows.filter (fun l => rowName l == n)
    ⟨n, mine.length, mine.map (fun l => some (csvParsePoint (rowRest l)))⟩)

/-- A data row both passes treat identically: non-empty, has a comma, does
not start with one (so the name is non-empty and `strtok` agrees with
`strncpy`), a first column short enough not to be truncated, and short
enough for the 2048-byte `fgets` line buffer. -/
def GoodRow (l : List Char) : Prop :=
  l ≠ [] ∧ ',' ∈ l ∧ l.head? ≠ some ',' ∧
  (l.takeWhile (· != ',')).length ≤ 63 ∧ l.length ≤ 2046

instance (l : List Char) : Decidable (GoodRow l) := by
  unfold GoodRow; infer_instance

/-! ## C5: CSV decode and FormatError -/

/-- C5 (amended): once a file yields at least one line, CSV decode never
returns `FormatError` (`DE430_ERROR_PARSE_FAILED`) — malformed numeric text
degrades to 0.0 instead of failing; the one exception, forced by the code,
is the completely empty file, whose header-line read fails with
`DE430_ERROR_PARSE_FAILED` (see the counterexample theorem). -/
theorem csv_no_format_error (lines : List (List Char)) (init : Option (List CsvObj))
    (h : lines ≠ []) :
    (de430_load_from_csv lines init).1 ≠ ERROR_PARSE_FAILED := by
  cases lines with
  | nil => exact absurd rfl h
  | cons hdr rows =>
    simp [de430_load_from_csv, ERROR_NONE, ERROR_PARSE_FAILED]

/-- Witness for C5 at a one-line file. -/
theorem csv_no_format_error_witness :
    (de430_load_from_csv [['a']] none).1 ≠ ERROR_PARSE_FAILED :=
  csv_no_format_error [['a']] none (by decide)

/-- Counterexample to C5 as stated: an empty file — a readable input whose
content the claim says can never produce `FormatError` — makes the header
`fgets` fail and `de430_load_from_csv` return `DE430_ERROR_PARSE_FAILED`,
which is the spec's `FormatError`, not `IoError` or `MemoryError`. -/
theorem csv_empty_file_format_error :
    (de430_load_from_csv [] none).1 = ERROR_PARSE_FAILED ∧
    ERROR_PARSE_FAILED ≠ ERROR_FILE_IO ∧
    ERROR_PARSE_FAILED ≠ ERROR_MEMORY_ALLOCATION := by
  refine ⟨rfl, by decide, by decide⟩

/-! ## C7: partial writes and the three encoders -/

/-- C7 (amended): only the binary encoder checks its writes — a sink that
cannot take every byte makes `de430_save_to_binary` return `IoError`
(`DE430_ERROR_FILE_IO`); the CSV and JSON encoders never check their
`fprintf` calls and return success whatever part of the output the sink
accepted. -/
theorem partial_write_codes :
    (∀ (d : List BinObj) (cap : Nat), d ≠ [] → cap < (encFile d).length →
      de430_save_to_binary d cap = ( ERROR_FILE_IO, [])) ∧
    (∀ (d : List EphData) (cap : Nat), d ≠ [] →
      (de430_save_to_csv d cap).1 = ERROR_NONE) ∧
    (∀ (d : List EphData) (cap : Nat), d ≠ [] →
      (de430_save_to_json d cap).1 = ERROR_NONE) := by
  refine ⟨fun d cap h1 h2 => binary_short_write d cap h1 h2, ?_, ?_⟩
  · intro d cap hne
    have he : d.isEmpty = false := by
      cases d with
      | nil => exact absurd rfl hne
      | cons a t => rfl
    simp [de430_save_to_csv, he]
  · intro d cap hne
    have he : d.isEmpty = false := by
      cases d with
      | nil => exact absurd rfl hne
      | cons a t => rfl
    simp [de430_save_to_json, he]

/-- A one-object, one-point dataset for the text encoders. -/
def demoQData : List EphData :=
  [⟨['x'], [⟨0, 0, 0, 0, 0, 0, 0, 0, 0, 0, 0, 0, 0, 0, 0, 0, 0, 0, []⟩]⟩]

set_option maxRecDepth 40000 in
/-- Witness for C7 at concrete data and sink capacities that cannot hold the
output. -/
theorem partial_write_codes_witness :
    de430_save_to_binary demoData 3 = ( ERROR_FILE_IO, []) ∧
    (de430_save_to_csv demoQData 0).1 = ERROR_NONE ∧
    (de430_save_to_json demoQData 0).1 = ERROR_NONE :=
  ⟨partial_write_codes.1 demoData 3 (by decide) (by decide),
   partial_write_codes.2.1 demoQData 0 (by decide),
   partial_write_codes.2.2 demoQData 0 (by decide)⟩

set_option maxRecDepth 40000 in
/-- Counterexample to C7 as stated: the CSV encoder, asked to write a
non-empty dataset into a sink that accepts none of its bytes, still returns
success — a partial (here: empty) write is not turned into `IoError` for the
CSV (or JSON) codec, only for the binary one. -/
theorem partial_write_codes_cex :
    (de430_save_to_csv demoQData 0).1 = ERROR_NONE ∧
    (csvText demoQData).length ≠ 0 ∧
    (de430_save_to_json demoQData 0).1 = ERROR_NONE ∧
    ERROR_NONE ≠ ERROR_FILE_IO := by
  refine ⟨rfl, by decide, rfl, by decide⟩

/-! ## C6: positional field assignment -/

lemma takeWhile_field (f r : List Char) (hnc : ',' ∉ f) :
    (f ++ ',' :: r).takeWhile (· != ',') = f := by
  induction f with
  | nil => simp [List.takeWhile_cons]
  | cons c t ih =>
    have hcc : c ≠ ',' := fun e => hnc (by simp [e])
    have hc : (c != ',') = true := by simp [hcc]
    simp only [List.cons_append, List.takeWhile_cons, hc, if_true]
    rw [ih (fun hm => hnc (List.mem_cons_of_mem c hm))]

lemma dropWhile_field (f r : List Char) (hnc : ',' ∉ f) :
    (f ++ ',' :: r).dropWhile (· != ',') = ',' :: r := by
  induction f with
  | nil => simp [List.dropWhile_cons]
  | cons c t ih =>
    have hcc : c ≠ ',' := fun e => hnc (by simp [e])
    have hc : (c != ',') = true := by simp [hcc]
    simp only [List.cons_append, List.dropWhile_cons, hc, if_true]
    exact ih (fun hm => hnc (List.mem_cons_of_mem c hm))

lemma csvField_field (f r : List Char) (hne : f ≠ []) (hnc : ',' ∉ f) :
    csvField (f ++ ',' :: r) = (atof f, r) := by
  have hd : (f ++ ',' :: r).dropWhile (· == ',') = f ++ ',' :: r := by
    cases f with
    | nil => exact absurd rfl hne
    | cons c t =>
      have hcc : c ≠ ',' := fun e => hnc (by simp [e])
      have hc : (c == ',') = false := by simp [hcc]
      simp [List.dropWhile_cons, hc]
  have hie : (f ++ ',' :: r).isEmpty = false := by
    cases f <;> rfl
  simp only [csvField, tokC, hd, hie, Bool.false_eq_true, if_false,
    takeWhile_field f r hnc, dropWhile_field f r hnc, List.drop_succ_cons,
    List.drop_zero]

lemma takeWhile_no_nl (g : List Char) (hg : '\n' ∉ g) :
    g.takeWhile (· != '\n') = g := by
  induction g with
  | nil => rfl
  | cons c t ih =>
    have hcc : c ≠ '\n' := fun e => hg (by simp [e])
    have hc : (c != '\n') = true := by simp [hcc]
    simp only [List.takeWhile_cons, hc, if_true]
    rw [ih (fun hm => hg (List.mem_cons_of_mem c hm))]

lemma cstField_all (g : List Char) (hg : '\n' ∉ g) : cstField g = g.take 31 := by
  cases g with
  | nil => rfl
  | cons c t =>
    have hcc : c ≠ '\n' := fun e => hg (by simp [e])
    have hd : ((c :: t).dropWhile (· == '\n')) = c :: t := by
      have hc : (c == '\n') = false := by simp [hcc]
      simp [List.dropWhile_cons, hc]
    simp only [cstField, tokNl, hd, List.isEmpty_cons, Bool.false_eq_true, if_false,
      takeWhile_no_nl (c :: t) hg]

/-- C6 (amended): when every one of the 18 numeric fields after the object
name is non-empty and comma-free, the fields land positionally — field `k`
of the row is parsed with `atof` into column `k`'s model field, a field that
fails to parse becoming 0.0 for that field only (second conjunct) without
shifting the rest, and the remainder of the row becomes the constellation.
An *empty* field, however, is not covered: `strtok_r` collapses adjacent
delimiters, so an empty field is skipped and the following fields shift left
(see the counterexample theorem). -/
theorem csv_positional_fields :
    (∀ (f1 f2 f3 f4 f5 f6 f7 f8 f9 f10 f11 f12 f13 f14 f15 f16 f17 f18 g : List Char),
      f1 ≠ [] → ',' ∉ f1 →
      f2 ≠ [] → ',' ∉ f2 →
      f3 ≠ [] → ',' ∉ f3 →
      f4 ≠ [] → ',' ∉ f4 →
      f5 ≠ [] → ',' ∉ f5 →
      f6 ≠ [] → ',' ∉ f6 →
      f7 ≠ [] → ',' ∉ f7 →
      f8 ≠ [] → ',' ∉ f8 →
      f9 ≠ [] → ',' ∉ f9 →
      f10 ≠ [] → ',' ∉ f10 →
      f11 ≠ [] → ',' ∉ f11 →
      f12 ≠ [] → ',' ∉ f12 →
      f13 ≠ [] → ',' ∉ f13 →
      f14 ≠ [] → ',' ∉ f14 →
      f15 ≠ [] → ',' ∉ f15 →
      f16 ≠ [] → ',' ∉ f16 →
      f17 ≠ [] → ',' ∉ f17 →
      f18 ≠ [] → ',' ∉ f18 →
      '\n' ∉ g →
      csvParsePoint (f1 ++ (',' :: (f2 ++ (',' :: (f3 ++ (',' :: (f4 ++ (',' :: (f5 ++ (',' :: (f6 ++ (',' :: (f7 ++ (',' :: (f8 ++ (',' :: (f9 ++ (',' :: (f10 ++ (',' :: (f11 ++ (',' :: (f12 ++ (',' :: (f13 ++ (',' :: (f14 ++ (',' :: (f15 ++ (',' :: (f16 ++ (',' :: (f17 ++ (',' :: (f18 ++ (',' :: (g))))))))))))))))))))))))))))))))))))) =
        ⟨atof f1, atof f2, atof f3, atof f4, atof f5, atof f6, atof f7, atof f8, atof f9, atof f10, atof f11, atof f12, atof f13, atof f14, atof f15, atof f16, atof f17, atof f18, g.take 31⟩) ∧
    (∀ t, atofNum t = none → atof t = 0) := by
  constructor
  · intro f1 f2 f3 f4 f5 f6 f7 f8 f9 f10 f11 f12 f13 f14 f15 f16 f17 f18 g h1a h1b h2a h2b h3a h3b h4a h4b h5a h5b h6a h6b h7a h7b h8a h8b h9a h9b h10a h10b h11a h11b h12a h12b h13a h13b h14a h14b h15a h15b h16a h16b h17a h17b h18a h18b hg
    simp only [csvParsePoint,
      csvField_field f1 (f2 ++ (',' :: (f3 ++ (',' :: (f4 ++ (',' :: (f5 ++ (',' :: (f6 ++ (',' :: (f7 ++ (',' :: (f8 ++ (',' :: (f9 ++ (',' :: (f10 ++ (',' :: (f11 ++ (',' :: (f12 ++ (',' :: (f13 ++ (',' :: (f14 ++ (',' :: (f15 ++ (',' :: (f16 ++ (',' :: (f17 ++ (',' :: (f18 ++ (',' :: (g))))))))))))))))))))))))))))))))))) h1a h1b,
      csvField_field f2 (f3 ++ (',' :: (f4 ++ (',' :: (f5 ++ (',' :: (f6 ++ (',' :: (f7 ++ (',' :: (f8 ++ (',' :: (f9 ++ (',' :: (f10 ++ (',' :: (f11 ++ (',' :: (f12 ++ (',' :: (f13 ++ (',' :: (f14 ++ (',' :: (f15 ++ (',' :: (f16 ++ (',' :: (f17 ++ (',' :: (f18 ++ (',' :: (g))))))))))))))))))))))))))))))))) h2a h2b,
      csvField_field f3 (f4 ++ (',' :: (f5 ++ (',' :: (f6 ++ (',' :: (f7 ++ (',' :: (f8 ++ (',' :: (f9 ++ (',' :: (f10 ++ (',' :: (f11 ++ (',' :: (f12 ++ (',' :: (f13 ++ (',' :: (f14 ++ (',' :: (f15 ++ (',' :: (f16 ++ (',' :: (f17 ++ (',' :: (f18 ++ (',' :: (g))))))))))))))))))))))))))))))) h3a h3b,
      csvField_field f4 (f5 ++ (',' :: (f6 ++ (',' :: (f7 ++ (',' :: (f8 ++ (',' :: (f9 ++ (',' :: (f10 ++ (',' :: (f11 ++ (',' :: (f12 ++ (',' :: (f13 ++ (',' :: (f14 ++ (',' :: (f15 ++ (',' :: (f16 ++ (',' :: (f17 ++ (',' :: (f18 ++ (',' :: (g))))))))))))))))))))))))))))) h4a h4b,
      csvField_field f5 (f6 ++ (',' :: (f7 ++ (',' :: (f8 ++ (',' :: (f9 ++ (',' :: (f10 ++ (',' :: (f11 ++ (',' :: (f12 ++ (',' :: (f13 ++ (',' :: (f14 ++ (',' :: (f15 ++ (',' :: (f16 ++ (',' :: (f17 ++ (',' :: (f18 ++ (',' :: (g))))))))))))))))))))))))))) h5a h5b,
      csvField_field f6 (f7 ++ (',' :: (f8 ++ (',' :: (f9 ++ (',' :: (f10 ++ (',' :: (f11 ++ (',' :: (f12 ++ (',' :: (f13 ++ (',' :: (f14 ++ (',' :: (f15 ++ (',' :: (f16 ++ (',' :: (f17 ++ (',' :: (f18 ++ (',' :: (g))))))))))))))))))))))))) h6a h6b,
      csvField_field f7 (f8 ++ (',' :: (f9 ++ (',' :: (f10 ++ (',' :: (f11 ++ (',' :: (f12 ++ (',' :: (f13 ++ (',' :: (f14 ++ (',' :: (f15 ++ (',' :: (f16 ++ (',' :: (f17 ++ (',' :: (f18 ++ (',' :: (g))))))))))))))))))))))) h7a h7b,
      csvField_field f8 (f9 ++ (',' :: (f10 ++ (',' :: (f11 ++ (',' :: (f12 ++ (',' :: (f13 ++ (',' :: (f14 ++ (',' :: (f15 ++ (',' :: (f16 ++ (',' :: (f17 ++ (',' :: (f18 ++ (',' :: (g))))))))))))))))))))) h8a h8b,
      csvField_field f9 (f10 ++ (',' :: (f11 ++ (',' :: (f12 ++ (',' :: (f13 ++ (',' :: (f14 ++ (',' :: (f15 ++ (',' :: (f16 ++ (',' :: (f17 ++ (',' :: (f18 ++ (',' :: (g))))))))))))))))))) h9a h9b,
      csvField_field f10 (f11 ++ (',' :: (f12 ++ (',' :: (f13 ++ (',' :: (f14 ++ (',' :: (f15 ++ (',' :: (f16 ++ (',' :: (f17 ++ (',' :: (f18 ++ (',' :: (g))))))))))))))))) h10a h10b,
      csvField_field f11 (f12 ++ (',' :: (f13 ++ (',' :: (f14 ++ (',' :: (f15 ++ (',' :: (f16 ++ (',' :: (f17 ++ (',' :: (f18 ++ (',' :: (g))))))))))))))) h11a h11b,
      csvField_field f12 (f13 ++ (',' :: (f14 ++ (',' :: (f15 ++ (',' :: (f16 ++ (',' :: (f17 ++ (',' :: (f18 ++ (',' :: (g))))))))))))) h12a h12b,
      csvField_field f13 (f14 ++ (',' :: (f15 ++ (',' :: (f16 ++ (',' :: (f17 ++ (',' :: (f18 ++ (',' :: (g))))))))))) h13a h13b,
      csvField_field f14 (f15 ++ (',' :: (f16 ++ (',' :: (f17 ++ (',' :: (f18 ++ (',' :: (g))))))))) h14a h14b,
      csvField_field f15 (f16 ++ (',' :: (f17 ++ (',' :: (f18 ++ (',' :: (g))))))) h15a h15b,
      csvField_field f16 (f17 ++ (',' :: (f18 ++ (',' :: (g))))) h16a h16b,
      csvField_field f17 (f18 ++ (',' :: (g))) h17a h17b,
      csvField_field f18 (g) h18a h18b,
      cstField_all g hg]
  · intro t h
    simp [atof, h]

set_option maxRecDepth 40000 in
/-- Witness for C6: a concrete row whose 18 numeric fields and constellation
land in their columns. -/
theorem csv_positional_fields_witness :
    csvParsePoint
      (['1', '.', '5'] ++ (',' :: (['7'] ++ (',' :: (['7'] ++ (',' :: (['7'] ++ (',' :: (['7'] ++ (',' :: (['7'] ++ (',' :: (['7'] ++ (',' :: (['7'] ++ (',' :: (['7'] ++ (',' :: (['7'] ++ (',' :: (['7'] ++ (',' :: (['7'] ++ (',' :: (['7'] ++ (',' :: (['7'] ++ (',' :: (['7'] ++ (',' :: (['7'] ++ (',' :: (['7'] ++ (',' :: (['7'] ++ (',' :: (['L', 'e', 'o']))))))))))))))))))))))))))))))))))))) =
      ⟨mkRat 3 2, 7, 7, 7, 7, 7, 7, 7, 7, 7, 7, 7, 7, 7, 7, 7, 7, 7,
       ['L', 'e', 'o']⟩ := by
  have h := csv_positional_fields.1 ['1', '.', '5'] ['7'] ['7'] ['7'] ['7'] ['7'] ['7'] ['7'] ['7'] ['7'] ['7'] ['7'] ['7'] ['7'] ['7'] ['7'] ['7'] ['7'] ['L', 'e', 'o'] (by decide) (by decide) (by decide) (by decide) (by decide) (by decide) (by decide) (by decide) (by decide) (by decide) (by decide) (by decide) (by decide) (by decide) (by decide) (by decide) (by decide) (by decide) (by decide) (by decide) (by decide) (by decide) (by decide) (by decide) (by decide) (by decide) (by decide) (by decide) (by decide) (by decide) (by decide) (by decide) (by decide) (by decide) (by decide) (by decide) (by decide)
  exact h.trans (by decide)

set_option maxRecDepth 40000 in
/-- Counterexample to C6 as stated: in the row `obj,,3` the first numeric
field (the Julian date) is empty, so the claim requires `jd = 0.0` and
`pos_x = 3`.  `strtok_r` skips the empty field, so the decoder instead
assigns `jd = 3`: the assignment shifted. -/
theorem csv_positional_fields_cex :
    (de430_load_from_csv [['h'], ['o', 'b', 'j', ',', ',', '3']] none).2 =
      some [⟨['o', 'b', 'j'], 1,
        [some ⟨3, 0, 0, 0, 0, 0, 0, 0, 0, 0, 0, 0, 0, 0, 0, 0, 0, 0, []⟩]⟩] ∧
    (3 : ℚ) ≠ 0 :=
  ⟨by decide, by decide⟩

/-! ## C2: the two-pass grouping -/

/-- The tallied count of a name (first matching entry; 0 when absent). -/
def lookupCnt : List (List Char × Nat) → List Char → Nat
  | [], _ => 0
  | (m, c) :: rest, n => if m = n then c else lookupCnt rest n

/-- Tallying keeps the key list, inserting a fresh name at the end. -/
theorem tally_keys (acc : List (List Char × Nat)) (n : List Char) :
    (tally acc n).map Prod.fst = seenInsert (acc.map Prod.fst) n := by
  induction acc with
  | nil => simp [tally, seenInsert]
  | cons hd tl ih =>
    obtain ⟨m, c⟩ := hd
    by_cases h : m = n
    · subst h
      simp [tally, seenInsert]
    · by_cases hn : n ∈ tl.map Prod.fst
      · simp [tally, h, ih, seenInsert, hn, Ne.symm h]
      · simp [tally, h, ih, seenInsert, hn, Ne.symm h]

/-- Tallying bumps exactly the tallied name's count. -/
theorem tally_lookupCnt (acc : List (List Char × Nat)) (n m : List Char) :
    lookupCnt (tally acc n) m =
      if m = n then lookupCnt acc m + 1 else lookupCnt acc m := by
  induction acc with
  | nil =>
    by_cases h : m = n
    · subst h; simp [tally, lookupCnt]
    · simp [tally, lookupCnt, h, Ne.symm h]
  | cons hd tl ih =>
    obtain ⟨k, c⟩ := hd
    by_cases hk : k = n
    · subst hk
      by_cases hm : k = m
      · subst hm; simp [tally, lookupCnt]
      · have hm' : ¬ m = k := fun h => hm h.symm
        rw [if_neg hm']
        simp [tally, lookupCnt, hm]
    · by_cases hm : k = m
      · subst hm
        have hk' : ¬ k = n := hk
        simp [tally, lookupCnt, hk', Ne.symm hk']
      · simp [tally, lookupCnt, hk, hm, ih]

/-- A good row's discovery-pass name is its first column (each truncated to
63 bytes by `strncpy`). -/
theorem lineName1_good (l : List Char) (h : GoodRow l) :
    lineName1 l = some (rowName l) := by
  obtain ⟨h1, h2, -, -, -⟩ := h
  simp [lineName1, h1, h2, rowName]

/-- On a good row `strtok_r` yields the first column and leaves the rest. -/
theorem tokC_good (l : List Char) (h : GoodRow l) :
    tokC l = some (l.takeWhile (· != ','), rowRest l) := by
  obtain ⟨h1, -, h3, -, -⟩ := h
  cases l with
  | nil => exact absurd rfl h1
  | cons c t =>
    have hc : (c == ',') = false := by
      simp only [List.head?_cons, ne_eq, Option.some.injEq] at h3
      simpa using h3
    simp [tokC, rowRest, List.dropWhile, hc]

/-- On a good row the fill pass appends the parsed point to the row's name. -/
theorem fillLine_good (st : List (List Char × List QPoint)) (l : List Char)
    (h : GoodRow l) :
    fillLine st l = appendPt st (rowName l) (csvParsePoint (rowRest l)) := by
  rw [fillLine, if_neg h.1, tokC_good l h]
  rfl

/-- Appending a point never changes the key list. -/
theorem appendPt_keys (st : List (List Char × List QPoint)) (n : List Char)
    (p : QPoint) : (appendPt st n p).map Prod.fst = st.map Prod.fst := by
  induction st with
  | nil => rfl
  | cons hd tl ih =>
    obtain ⟨m, ps⟩ := hd
    by_cases h : m = n <;> simp [appendPt, h, ih]

/-- A fill-pass step never changes the key list. -/
theorem fillLine_keys (st : List (List Char × List QPoint)) (l : List Char) :
    (fillLine st l).map Prod.fst = st.map Prod.fst := by
  rw [fillLine]
  by_cases h : l = []
  · rw [if_pos h]
  · rw [if_neg h]
    cases htk : tokC l with
    | none => rfl
    | some tr => exact appendPt_keys _ _ _

/-- The whole fill pass never changes the key list. -/
theorem foldl_fillLine_keys (rows : List (List Char))
    (st : List (List Char × List QPoint)) :
    (rows.foldl fillLine st).map Prod.fst = st.map Prod.fst := by
  induction rows generalizing st with
  | nil => rfl
  | cons l ls ih => rw [List.foldl_cons, ih, fillLine_keys]

/-- Appending a point extends exactly its name's slot list (and is dropped
when the name was never discovered). -/
theorem appendPt_lookup (st : List (List Char × List QPoint)) (n : List Char)
    (p : QPoint) (m : List Char) :
    lookupFill (appendPt st n p) m =
      if m = n ∧ n ∈ st.map Prod.fst then lookupFill st m ++ [p]
      else lookupFill st m := by
  induction st with
  | nil => simp [appendPt, lookupFill]
  | cons hd tl ih =>
    obtain ⟨k, ps⟩ := hd
    by_cases hk : k = n
    · subst hk
      by_cases hm : k = m
      · subst hm; simp [appendPt, lookupFill]
      · have hm' : ¬ m = k := fun h => hm h.symm
        simp only [appendPt, if_pos rfl, lookupFill, if_neg hm, List.map_cons,
          List.mem_cons, true_or, and_true]
        rw [if_neg hm']
    · by_cases hm : k = m
      · subst hm
        have hk' : ¬ k = n := hk
        have hc : ¬ (k = n ∧ n ∈ List.map Prod.fst ((k, ps) :: tl)) :=
          fun hc => hk' hc.1
        rw [if_neg hc]
        simp only [appendPt, if_neg hk', lookupFill, if_pos rfl, if_true]
      · have hn' : ¬ n = k := fun h => hk h.symm
        simp only [appendPt, if_neg hk, lookupFill, if_neg hm, ih,
          List.map_cons, List.mem_cons, hn', false_or]

/-- The fill pass appends, per name, the parsed points of exactly the rows
bearing that name, in row order — provided every row is good and every row
name was discovered. -/
theorem foldl_fillLine_lookup (rows : List (List Char))
    (st : List (List Char × List QPoint)) (m : List Char)
    (hg : ∀ l ∈ rows, GoodRow l)
    (hk : ∀ l ∈ rows, rowName l ∈ st.map Prod.fst) :
    lookupFill (rows.foldl fillLine st) m =
      lookupFill st m ++
        (rows.filter (fun l => rowName l == m)).map
          (fun l => csvParsePoint (rowRest l)) := by
  induction rows generalizing st with
  | nil => simp
  | cons l ls ih =>
    have hgl := hg l (List.mem_cons_self l ls)
    have hkl := hk l (List.mem_cons_self l ls)
    rw [List.foldl_cons, fillLine_good st l hgl,
      ih _ (fun x hx => hg x (List.mem_cons_of_mem _ hx))
        (fun x hx => by
          rw [appendPt_keys]; exact hk x (List.mem_cons_of_mem _ hx)),
      appendPt_lookup, List.filter_cons]
    by_cases hm : m = rowName l
    · have hb : (rowName l == m) = true := beq_iff_eq.mpr hm.symm
      rw [if_pos ⟨hm, hm ▸ hkl⟩, hb]
      simp [List.append_assoc]
    · have hb : (rowName l == m) = false :=
        beq_eq_false_iff_ne.mpr (fun h => hm h.symm)
      rw [if_neg (fun hc => hm hc.1), hb]
      simp

/-- Before the fill pass every slot list is empty. -/
theorem lookupFill_init (tal : List (List Char × Nat)) (m : List Char) :
    lookupFill (tal.map (fun nc => (nc.1, ([] : List QPoint)))) m = [] := by
  induction tal with
  | nil => rfl
  | cons hd tl ih => by_cases h : hd.1 = m <;> simp [lookupFill, h, ih]

/-- Allocation keeps the discovered key list. -/
theorem init_keys (tal : List (List Char × Nat)) :
    (tal.map (fun nc => (nc.1, ([] : List QPoint)))).map Prod.fst =
      tal.map Prod.fst := by
  induction tal with
  | nil => rfl
  | cons hd tl ih => simp [ih]

/-- On good rows the discovery pass's key list is the first-seen name list. -/
theorem discover_keys (rows : List (List Char)) (acc : List (List Char × Nat))
    (hg : ∀ l ∈ rows, GoodRow l) :
    (discover rows acc).map Prod.fst =
      rows.foldl (fun a l => seenInsert a (rowName l)) (acc.map Prod.fst) := by
  induction rows generalizing acc with
  | nil => rfl
  | cons l ls ih =>
    have h1 := lineName1_good l (hg l (List.mem_cons_self l ls))
    simp only [discover, h1, List.foldl_cons]
    rw [ih _ (fun x hx => hg x (List.mem_cons_of_mem _ hx)), tally_keys]

/-- On good rows the discovery pass tallies, per name, exactly the number of
rows bearing that name. -/
theorem discover_lookupCnt (rows : List (List Char))
    (acc : List (List Char × Nat)) (m : List Char)
    (hg : ∀ l ∈ rows, GoodRow l) :
    lookupCnt (discover rows acc) m =
      lookupCnt acc m + (rows.filter (fun l => rowName l == m)).length := by
  induction rows generalizing acc with
  | nil => simp [discover]
  | cons l ls ih =>
    have h1 := lineName1_good l (hg l (List.mem_cons_self l ls))
    simp only [discover, h1, List.filter_cons]
    rw [ih _ (fun x hx => hg x (List.mem_cons_of_mem _ hx)), tally_lookupCnt]
    by_cases hm : m = rowName l
    · have hb : (rowName l == m) = true := beq_iff_eq.mpr hm.symm
      rw [if_pos hm, hb]
      simp
      omega
    · have hb : (rowName l == m) = false :=
        beq_eq_false_iff_ne.mpr (fun h => hm h.symm)
      rw [if_neg hm, hb]
      simp

/-- Inserting a seen name keeps the list duplicate-free. -/
theorem seenInsert_nodup (acc : List (List Char)) (n : List Char)
    (h : acc.Nodup) : (seenInsert acc n).Nodup := by
  rw [seenInsert]
  by_cases hn : n ∈ acc
  · rwa [if_pos hn]
  · rw [if_neg hn]
    simp [List.nodup_append, h, hn]

/-- The first-seen fold keeps the list duplicate-free. -/
theorem foldl_seenInsert_nodup (rows : List (List Char))
    (acc : List (List Char)) (h : acc.Nodup) :
    (rows.foldl (fun a l => seenInsert a (rowName l)) acc).Nodup := by
  induction rows generalizing acc with
  | nil => exact h
  | cons l ls ih => exact ih _ (seenInsert_nodup _ _ h)

/-- The first-seen fold only grows the name list. -/
theorem foldl_seenInsert_mem (rows : List (List Char)) (acc : List (List Char))
    (a : List Char) (h : a ∈ acc) :
    a ∈ rows.foldl (fun a l => seenInsert a (rowName l)) acc := by
  induction rows generalizing acc with
  | nil => exact h
  | cons l ls ih =>
    rw [List.foldl_cons]
    refine ih _ ?_
    simp only [seenInsert]
    by_cases hn : rowName l ∈ acc
    · rwa [if_pos hn]
    · rw [if_neg hn]; exact List.mem_append_left _ h

/-- Every row's name ends up in the first-seen name list. -/
theorem rowName_mem_foldl (rows : List (List Char)) (acc : List (List Char))
    (l : List Char) (h : l ∈ rows) :
    rowName l ∈ rows.foldl (fun a x => seenInsert a (rowName x)) acc := by
  induction rows generalizing acc with
  | nil => cases h
  | cons x xs ih =>
    rcases List.mem_cons.mp h with h1 | h2
    · subst h1
      rw [List.foldl_cons]
      apply foldl_seenInsert_mem
      simp only [seenInsert]
      by_cases hn : rowName l ∈ acc
      · rwa [if_pos hn]
      · rw [if_neg hn]; exact List.mem_append_right _ (List.mem_singleton.mpr rfl)
    · exact ih _ h2

/-- With duplicate-free keys, the count looked up for an entry's key is that
entry's count. -/
theorem lookupCnt_of_mem (st : List (List Char × Nat)) (m : List Char) (c : Nat)
    (hnd : (st.map Prod.fst).Nodup) (h : (m, c) ∈ st) :
    lookupCnt st m = c := by
  induction st with
  | nil => cases h
  | cons hd tl ih =>
    obtain ⟨k, d⟩ := hd
    rcases List.mem_cons.mp h with h1 | h2
    · injection h1 with ha hb
      subst ha; subst hb
      simp [lookupCnt]
    · have hk : k ≠ m := by
        intro he
        subst he
        exact (List.nodup_cons.mp hnd).1
          (List.mem_map.mpr ⟨(k, c), h2, rfl⟩)
      rw [lookupCnt, if_neg hk]
      exact ih (List.nodup_cons.mp hnd).2 h2

/-- C2 (amended): on data rows that are non-empty, contain a comma, do not
begin with one, and fit the name and line buffers, `de430_load_from_csv`
returns exactly the grouping the spec describes: one object per distinct
object name in first-seen order, each holding exactly the points of the
rows bearing its name, in original row order. -/
theorem csv_two_pass_grouping (hdr : List Char) (rows : List (List Char))
    (init : Option (List CsvObj)) (hg : ∀ l ∈ rows, GoodRow l) :
    de430_load_from_csv (hdr :: rows) init =
      (ERROR_NONE, some (csvGroupSpec rows)) := by
  have hkeys : (discover rows []).map Prod.fst = firstSeenNames rows :=
    discover_keys rows [] hg
  have hnd : ((discover rows []).map Prod.fst).Nodup := by
    rw [hkeys]
    exact foldl_seenInsert_nodup rows [] List.nodup_nil
  have hfill : ∀ m, lookupFill (rows.foldl fillLine
        ((discover rows []).map (fun nc => (nc.1, ([] : List QPoint))))) m =
      (rows.filter (fun l => rowName l == m)).map
        (fun l => csvParsePoint (rowRest l)) := by
    intro m
    rw [foldl_fillLine_lookup rows _ m hg
        (fun l hl => by
          rw [init_keys, hkeys]
          exact rowName_mem_foldl rows [] l hl),
      lookupFill_init]
    rfl
  have hmain : (discover rows []).map (fun nc =>
      ({ object_name := nc.1, count := nc.2,
         points := (lookupFill (rows.foldl fillLine
             ((discover rows []).map (fun x => (x.1, ([] : List QPoint))))) nc.1).map
               some ++
           List.replicate (nc.2 - (lookupFill (rows.foldl fillLine
             ((discover rows []).map (fun x => (x.1, ([] : List QPoint))))) nc.1).length)
             none } : CsvObj)) =
      csvGroupSpec rows := by
    rw [csvGroupSpec, ← hkeys, List.map_map]
    refine List.map_congr_left ?_
    intro nc hnc
    obtain ⟨n, c⟩ := nc
    have hcnt : c = (rows.filter (fun l => rowName l == n)).length := by
      have h1 := lookupCnt_of_mem (discover rows []) n c hnd hnc
      have h2 := discover_lookupCnt rows [] n hg
      rw [h1] at h2
      simpa [lookupCnt] using h2
    subst hcnt
    simp [hfill, List.map_map, Function.comp]
  simp only [de430_load_from_csv]
  exact congrArg (fun x => ((ERROR_NONE : Int), some x)) hmain

/-- The first of the claim's rows: `jupiter,1`. -/
def jupRow1 : List Char := ['j', 'u', 'p', 'i', 't', 'e', 'r', ',', '1']

/-- The second of the claim's rows: `mars,2`. -/
def marsRow : List Char := ['m', 'a', 'r', 's', ',', '2']

/-- The third of the claim's rows: `jupiter,3`. -/
def jupRow3 : List Char := ['j', 'u', 'p', 'i', 't', 'e', 'r', ',', '3']

set_option maxRecDepth 20000 in
/-- Witness for C2 at the claim's concrete instance: rows jupiter(jd=1),
mars(jd=2), jupiter(jd=3) decode to exactly two objects, jupiter with the
points jd=1 then jd=3 and mars with the point jd=2. -/
theorem csv_two_pass_grouping_witness :
    (∀ l ∈ [jupRow1, marsRow, jupRow3], GoodRow l) ∧
    de430_load_from_csv ([] :: [jupRow1, marsRow, jupRow3]) none =
      (ERROR_NONE, some (csvGroupSpec [jupRow1, marsRow, jupRow3])) ∧
    csvGroupSpec [jupRow1, marsRow, jupRow3] =
      [⟨['j', 'u', 'p', 'i', 't', 'e', 'r'], 2,
        [some ⟨1, 0, 0, 0, 0, 0, 0, 0, 0, 0, 0, 0, 0, 0, 0, 0, 0, 0, []⟩,
         some ⟨3, 0, 0, 0, 0, 0, 0, 0, 0, 0, 0, 0, 0, 0, 0, 0, 0, 0, []⟩]⟩,
       ⟨['m', 'a', 'r', 's'], 1,
        [some ⟨2, 0, 0, 0, 0, 0, 0, 0, 0, 0, 0, 0, 0, 0, 0, 0, 0, 0, []⟩]⟩] :=
  ⟨by decide,
   csv_two_pass_grouping [] [jupRow1, marsRow, jupRow3] none (by decide),
   by decide⟩

set_option maxRecDepth 20000 in
/-- Counterexample to C2 as stated: the row `",5"` does contain a comma, but
its name column is empty.  The discovery pass's `strncpy` records the empty
name, while the fill pass's `strtok_r` skips the leading comma and looks up
`"5"`, which was never discovered, so the row's point is dropped: the
returned object holds an unfilled slot, not the grouping the claim
requires. -/
theorem csv_two_pass_grouping_cex :
    de430_load_from_csv ([] :: [[',', '5']]) none =
      (ERROR_NONE, some [⟨[], 1, [none]⟩]) ∧
    de430_load_from_csv ([] :: [[',', '5']]) none ≠
      (ERROR_NONE, some (csvGroupSpec [[',', '5']])) :=
  ⟨by decide, by decide⟩

end DE430
